import Mathlib

set_option maxHeartbeats 1000000
set_option maxRecDepth 8000

namespace Aiopixiv

/-!
Verification of the aiopixiv request/response pipeline.

The Python standard library pair `json.dumps` / `json.loads` is modelled by
`dumps` / `loads` below over the `JSONValue` type.  JSON numbers are modelled
as integers (the code under verification only produces integer numbers:
identifiers, flags and Unix timestamps); `dumps` follows Python's default
item and key separators `", "` and `": "` and escapes the two mandatory
characters, the common short escapes and other control characters, keeping
all remaining characters literal.
-/

mutual

inductive JSONValue where
  | null : JSONValue
  | bool (b : Bool) : JSONValue
  | int (n : Int) : JSONValue
  | str (s : String) : JSONValue
  | arr (elems : JSONArray) : JSONValue
  | obj (fields : JSONObject) : JSONValue

inductive JSONArray where
  | nil : JSONArray
  | cons (hd : JSONValue) (tl : JSONArray) : JSONArray

inductive JSONObject where
  | nil : JSONObject
  | cons (key : String) (val : JSONValue) (tl : JSONObject) : JSONObject

end

deriving instance DecidableEq for JSONValue, JSONArray, JSONObject

def JSONArray.ofList : List JSONValue → JSONArray
  | [] => .nil
  | v :: vs => .cons v (JSONArray.ofList vs)

def JSONObject.ofList : List (String × JSONValue) → JSONObject
  | [] => .nil
  | (k, v) :: kvs => .cons k v (JSONObject.ofList kvs)

def JSONObject.lookup (key : String) : JSONObject → Option JSONValue
  | .nil => none
  | .cons k v tl => if k = key then some v else JSONObject.lookup key tl

def JSONObject.keys : JSONObject → List String
  | .nil => []
  | .cons k _ tl => k :: JSONObject.keys tl

def JSONObject.hasKey (key : String) (o : JSONObject) : Bool :=
  (o.lookup key).isSome

/-- Removal of a key, as Python's `dict.pop` leaves the dictionary when the
key is present (only the first binding can exist in a Python dict). -/
def JSONObject.erase (key : String) : JSONObject → JSONObject
  | .nil => .nil
  | .cons k v tl => if k = key then tl else .cons k v (JSONObject.erase key tl)

/-! Decimal printing of natural numbers, as Python prints integers. -/

def digitChar : Nat → Char
  | 0 => '0' | 1 => '1' | 2 => '2' | 3 => '3' | 4 => '4'
  | 5 => '5' | 6 => '6' | 7 => '7' | 8 => '8' | _ => '9'

def natToCharsAux : Nat → Nat → List Char → List Char
  | 0, _, acc => acc
  | fuel + 1, n, acc =>
    if n = 0 then acc
    else natToCharsAux fuel (n / 10) (digitChar (n % 10) :: acc)

def natToChars (n : Nat) : List Char :=
  if n = 0 then ['0'] else natToCharsAux n n []

/-- Lowercase hexadecimal digit, as used by Python's `\uXXXX` escapes. -/
def hexDigitChar : Nat → Char
  | 0 => '0' | 1 => '1' | 2 => '2' | 3 => '3' | 4 => '4'
  | 5 => '5' | 6 => '6' | 7 => '7' | 8 => '8' | 9 => '9'
  | 10 => 'a' | 11 => 'b' | 12 => 'c' | 13 => 'd' | 14 => 'e' | _ => 'f'

/-- JSON string escaping of one character: the mandatory escapes, Python's
short escapes and `\u00XX` for the remaining control characters. -/
def escChar (c : Char) : List Char :=
  if c = '"' then ['\\', '"']
  else if c = '\\' then ['\\', '\\']
  else if c = '\n' then ['\\', 'n']
  else if c = '\t' then ['\\', 't']
  else if c = '\r' then ['\\', 'r']
  else if c.toNat = 8 then ['\\', 'b']
  else if c.toNat = 12 then ['\\', 'f']
  else if c.toNat < 32 then
    '\\' :: 'u' :: '0' :: '0' :: hexDigitChar (c.toNat / 16) :: [hexDigitChar (c.toNat % 16)]
  else [c]

def escString : List Char → List Char
  | [] => []
  | c :: cs => escChar c ++ escString cs

mutual

def dumpValue : JSONValue → List Char
  | .null => ['n', 'u', 'l', 'l']
  | .bool false => ['f', 'a', 'l', 's', 'e']
  | .bool true => ['t', 'r', 'u', 'e']
  | .int n => if n < 0 then '-' :: natToChars n.natAbs else natToChars n.natAbs
  | .str s => '"' :: (escString s.data ++ ['"'])
  | .arr .nil => ['[', ']']
  | .arr (.cons v tl) => '[' :: (dumpValue v ++ dumpElems tl ++ [']'])
  | .obj .nil => ['\x7b', '\x7d']
  | .obj (.cons k v tl) =>
      '\x7b' :: ('"' :: (escString k.data ++ ['"', ':', ' ']) ++ dumpValue v ++ dumpMembers tl ++ ['\x7d'])

def dumpElems : JSONArray → List Char
  | .nil => []
  | .cons v tl => ',' :: ' ' :: (dumpValue v ++ dumpElems tl)

def dumpMembers : JSONObject → List Char
  | .nil => []
  | .cons k v tl => ',' :: ' ' :: ('"' :: (escString k.data ++ ['"', ':', ' ']) ++ dumpValue v ++ dumpMembers tl)

end

/-- Model of Python `json.dumps` with its default separators. -/
def dumps (v : JSONValue) : String := String.mk (dumpValue v)

/-! Parsing, the model of Python `json.loads`. -/

def isWs (c : Char) : Bool := c = ' ' || c = '\t' || c = '\n' || c = '\r'

def skipWs : List Char → List Char
  | [] => []
  | c :: cs => if isWs c then skipWs cs else c :: cs

def isDigitChar (c : Char) : Bool := 48 ≤ c.toNat && c.toNat ≤ 57

def digitValue (c : Char) : Nat := c.toNat - 48

def parseDigitsAux (acc : Nat) : List Char → Nat × List Char
  | [] => (acc, [])
  | c :: cs => if isDigitChar c then parseDigitsAux (10 * acc + digitValue c) cs else (acc, c :: cs)

def parseNat (cs : List Char) : Option (Nat × List Char) :=
  match cs with
  | c :: _ => if isDigitChar c then some (parseDigitsAux 0 cs) else none
  | [] => none

def hexValue (c : Char) : Option Nat :=
  if 48 ≤ c.toNat ∧ c.toNat ≤ 57 then some (c.toNat - 48)
  else if 97 ≤ c.toNat ∧ c.toNat ≤ 102 then some (c.toNat - 87)
  else if 65 ≤ c.toNat ∧ c.toNat ≤ 70 then some (c.toNat - 55)
  else none

def hex4 (x1 x2 x3 x4 : Char) : Option Nat :=
  match hexValue x1, hexValue x2, hexValue x3, hexValue x4 with
  | some a, some b, some c, some d => some (4096 * a + 256 * b + 16 * c + d)
  | _, _, _, _ => none

/-- The character denoted by a `\uXXXX` escape; surrogate code points are
rejected (Python would accept a lone surrogate inside a `str`, a value that a
Unicode scalar cannot carry; no JSON text of this development contains one). -/
def parseUChar (x1 x2 x3 x4 : Char) : Option Char :=
  match hex4 x1 x2 x3 x4 with
  | some n => if Nat.isValidChar n then some (Char.ofNat n) else none
  | none => none

def parseStringBody : List Char → Option (List Char × List Char)
  | [] => none
  | c :: cs =>
    if c = '"' then some ([], cs)
    else if c = '\\' then
      match cs with
      | [] => none
      | e :: cs2 =>
        if e = '"' then (parseStringBody cs2).map (fun p => ('"' :: p.1, p.2))
        else if e = '\\' then (parseStringBody cs2).map (fun p => ('\\' :: p.1, p.2))
        else if e = '/' then (parseStringBody cs2).map (fun p => ('/' :: p.1, p.2))
        else if e = 'n' then (parseStringBody cs2).map (fun p => ('\n' :: p.1, p.2))
        else if e = 't' then (parseStringBody cs2).map (fun p => ('\t' :: p.1, p.2))
        else if e = 'r' then (parseStringBody cs2).map (fun p => ('\r' :: p.1, p.2))
        else if e = 'b' then (parseStringBody cs2).map (fun p => (Char.ofNat 8 :: p.1, p.2))
        else if e = 'f' then (parseStringBody cs2).map (fun p => (Char.ofNat 12 :: p.1, p.2))
        else if e = 'u' then
          match cs2 with
          | x1 :: x2 :: x3 :: x4 :: cs3 =>
            match parseUChar x1 x2 x3 x4 with
            | some ch => (parseStringBody cs3).map (fun p => (ch :: p.1, p.2))
            | none => none
          | _ => none
        else none
    else if c.toNat < 32 then none
    else (parseStringBody cs).map (fun p => (c :: p.1, p.2))

/-- Case split on whether the input starts with a given character; keeping
this a function of the head lets proofs proceed with a symbolic head. -/
def headCase {α : Type} (cs : List Char) (c : Char) (hit : List Char → Option α)
    (miss : List Char → Option α) : Option α :=
  match cs with
  | [] => miss []
  | x :: xs => if x = c then hit xs else miss (x :: xs)

/-- Consume an expected literal prefix. -/
def dropPrefix : List Char → List Char → Option (List Char)
  | [], cs => some cs
  | _ :: _, [] => none
  | p :: ps, c :: cs => if c = p then dropPrefix ps cs else none

mutual

def parseValue : Nat → List Char → Option (JSONValue × List Char)
  | 0, _ => none
  | fuel + 1, cs =>
    match cs with
    | [] => none
    | c :: rest =>
      if c = 'n' then (dropPrefix ['u', 'l', 'l'] rest).map (fun r => (.null, r))
      else if c = 't' then (dropPrefix ['r', 'u', 'e'] rest).map (fun r => (.bool true, r))
      else if c = 'f' then (dropPrefix ['a', 'l', 's', 'e'] rest).map (fun r => (.bool false, r))
      else if c = '"' then (parseStringBody rest).map (fun p => (.str (String.mk p.1), p.2))
      else if c = '[' then
        headCase (skipWs rest) ']' (fun rest2 => some (.arr .nil, rest2))
          (fun rest2 => (parseElems fuel rest2).map (fun p => (.arr p.1, p.2)))
      else if c = '\x7b' then
        headCase (skipWs rest) '\x7d' (fun rest2 => some (.obj .nil, rest2))
          (fun rest2 => (parseMembers fuel rest2).map (fun p => (.obj p.1, p.2)))
      else if c = '-' then (parseNat rest).map (fun p => (.int (-(p.1 : Int)), p.2))
      else (parseNat (c :: rest)).map (fun p => (.int (p.1 : Int), p.2))

def parseElems : Nat → List Char → Option (JSONArray × List Char)
  | 0, _ => none
  | fuel + 1, cs =>
    match parseValue fuel cs with
    | none => none
    | some (v, rest) =>
      match skipWs rest with
      | ',' :: rest2 =>
        match parseElems fuel (skipWs rest2) with
        | none => none
        | some (tl, rest3) => some (.cons v tl, rest3)
      | ']' :: rest2 => some (.cons v .nil, rest2)
      | _ => none

def parseMembers : Nat → List Char → Option (JSONObject × List Char)
  | 0, _ => none
  | fuel + 1, cs =>
    match cs with
    | '"' :: rest =>
      match parseStringBody rest with
      | none => none
      | some (k, rest2) =>
        match skipWs rest2 with
        | ':' :: rest3 =>
          match parseValue fuel (skipWs rest3) with
          | none => none
          | some (v, rest4) =>
            match skipWs rest4 with
            | ',' :: rest5 =>
              match parseMembers fuel (skipWs rest5) with
              | none => none
              | some (tl, rest6) => some (.cons (String.mk k) v tl, rest6)
            | '\x7d' :: rest5 => some (.cons (String.mk k) v .nil, rest5)
            | _ => none
        | _ => none
    | _ => none

end

/-- Model of Python `json.loads`: parse one JSON value and require only
whitespace to remain. -/
def loads (s : String) : Option JSONValue :=
  match parseValue (s.length + 1) (skipWs s.data) with
  | some (v, rest) => if skipWs rest = [] then some v else none
  | none => none

/-- True when the input does not begin with a decimal digit, so that a
number printed in front of it parses back unchanged. -/
def noDigitStart : List Char → Bool
  | [] => true
  | c :: _ => !(isDigitChar c)

mutual

def needV : JSONValue → Nat
  | .null => 1
  | .bool _ => 1
  | .int _ => 1
  | .str _ => 1
  | .arr a => 1 + needA a
  | .obj o => 1 + needO o

def needA : JSONArray → Nat
  | .nil => 0
  | .cons v tl => 1 + needV v + needA tl

def needO : JSONObject → Nat
  | .nil => 0
  | .cons _ v tl => 1 + needV v + needO tl

end

/-- Python truthiness of a JSON-shaped value: `None`, `False`, `0`, `""`,
`[]` and `\x7b\x7d` are falsy, everything else truthy. -/
def jsonTruthy : JSONValue → Bool
  | .null => false
  | .bool b => b
  | .int n => decide (n ≠ 0)
  | .str s => decide (s ≠ "")
  | .arr .nil => false
  | .arr (.cons _ _) => true
  | .obj .nil => false
  | .obj (.cons _ _ _) => true

/-!
Error taxonomy from `aiopixiv/error.py`.  In the source these are classes in
single inheritance below `PixivError`; here one inductive with a constructor
per class.  `BadRequest` subclasses `NetworkError` in the source, but no claim
relies on that subtyping, only on which class is raised.  Python never type
checks the keyword arguments of `APIError` / `APIErrorDetail`, so those fields
carry raw JSON values.
-/

inductive PErr where
  | pixivError (message : String)
  | apiErrorDetail (user_message : JSONValue) (message : JSONValue) (reason : JSONValue) (user_message_details : JSONValue)
  | apiError (error : JSONValue) (message : JSONValue) (body : JSONValue)
  | authenticationError (message : String)
  | notAuthenticated (message : String)
  | notFound (message : String)
  | forbidden (message : String)
  | networkError (message : String)
  | badRequest (message : String)
deriving DecidableEq

instance exceptDecEq {ε α : Type} [DecidableEq ε] [DecidableEq α] : DecidableEq (Except ε α) :=
  fun a b =>
    match a, b with
    | .error e, .error f =>
      match decEq e f with
      | isTrue h => isTrue (h ▸ rfl)
      | isFalse h => isFalse (fun hh => h (Except.error.inj hh))
    | .error _, .ok _ => isFalse (fun hh => Except.noConfusion hh)
    | .ok _, .error _ => isFalse (fun hh => Except.noConfusion hh)
    | .ok x, .ok y =>
      match decEq x y with
      | isTrue h => isTrue (h ▸ rfl)
      | isFalse h => isFalse (fun hh => h (Except.ok.inj hh))

/-- Python exceptions that can escape the modelled code paths; `pixiv` wraps
the domain errors, the rest are builtin exception classes. -/
inductive PyExc where
  | pixiv (e : PErr)
  | keyError (key : String)
  | typeError (message : String)
  | attributeError (message : String)
  | moduleNotFoundError (name : String)
  | cancelledError
deriving DecidableEq

/-!
Byte payloads and UTF-8 decoding.  `bytes.decode("utf-8", errors="replace")`
never raises: invalid sequences become U+FFFD.  `decodeUtf8Replace` models it
with the usual maximal-subpart replacement policy; `validUtf8` is the strict
well-formedness check used to state claims about malformed input.
-/

abbrev Payload := List Nat

def replacementChar : Char := Char.ofNat 0xFFFD

def isCont (b : Nat) : Bool := 128 ≤ b && b ≤ 191

/-- Admissible second byte of a multi-byte sequence, given the lead byte. -/
def isCont2 (lead b : Nat) : Bool :=
  if lead = 224 then 160 ≤ b && b ≤ 191
  else if lead = 237 then 128 ≤ b && b ≤ 159
  else if lead = 240 then 144 ≤ b && b ≤ 191
  else if lead = 244 then 128 ≤ b && b ≤ 143
  else isCont b

def decodeUtf8ReplaceAux : Nat → List Nat → List Char
  | 0, _ => []
  | _ + 1, [] => []
  | fuel + 1, b :: bs =>
    if b ≤ 127 then Char.ofNat b :: decodeUtf8ReplaceAux fuel bs
    else if 194 ≤ b && b ≤ 223 then
      match bs with
      | b2 :: bs2 =>
        if isCont b2 then Char.ofNat ((b - 192) * 64 + (b2 - 128)) :: decodeUtf8ReplaceAux fuel bs2
        else replacementChar :: decodeUtf8ReplaceAux fuel bs
      | [] => [replacementChar]
    else if 224 ≤ b && b ≤ 239 then
      match bs with
      | b2 :: bs2 =>
        if isCont2 b b2 then
          match bs2 with
          | b3 :: bs3 =>
            if isCont b3 then
              Char.ofNat ((b - 224) * 4096 + (b2 - 128) * 64 + (b3 - 128)) :: decodeUtf8ReplaceAux fuel bs3
            else replacementChar :: decodeUtf8ReplaceAux fuel bs2
          | [] => [replacementChar]
        else replacementChar :: decodeUtf8ReplaceAux fuel bs
      | [] => [replacementChar]
    else if 240 ≤ b && b ≤ 244 then
      match bs with
      | b2 :: bs2 =>
        if isCont2 b b2 then
          match bs2 with
          | b3 :: bs3 =>
            if isCont b3 then
              match bs3 with
              | b4 :: bs4 =>
                if isCont b4 then
                  Char.ofNat ((b - 240) * 262144 + (b2 - 128) * 4096 + (b3 - 128) * 64 + (b4 - 128)) :: decodeUtf8ReplaceAux fuel bs4
                else replacementChar :: decodeUtf8ReplaceAux fuel bs3
              | [] => [replacementChar]
            else replacementChar :: decodeUtf8ReplaceAux fuel bs2
          | [] => [replacementChar]
        else replacementChar :: decodeUtf8ReplaceAux fuel bs
      | [] => [replacementChar]
    else replacementChar :: decodeUtf8ReplaceAux fuel bs

def decodeUtf8Replace (bytes : List Nat) : List Char :=
  decodeUtf8ReplaceAux bytes.length bytes

/-- Strict UTF-8 well-formedness of a byte sequence. -/
def validUtf8Aux : Nat → List Nat → Bool
  | 0, bytes => bytes.isEmpty
  | _ + 1, [] => true
  | fuel + 1, b :: bs =>
    if b ≤ 127 then validUtf8Aux fuel bs
    else if 194 ≤ b && b ≤ 223 then
      match bs with
      | b2 :: bs2 => isCont b2 && validUtf8Aux fuel bs2
      | [] => false
    else if 224 ≤ b && b ≤ 239 then
      match bs with
      | b2 :: b3 :: bs3 => isCont2 b b2 && isCont b3 && validUtf8Aux fuel bs3
      | _ => false
    else if 240 ≤ b && b ≤ 244 then
      match bs with
      | b2 :: b3 :: b4 :: bs4 => isCont2 b b2 && isCont b3 && isCont b4 && validUtf8Aux fuel bs4
      | _ => false
    else false

def validUtf8 (bytes : List Nat) : Bool :=
  validUtf8Aux bytes.length bytes

/-!
The transport wrapper, `aiopixiv/request/_baserequst.py`.
-/

namespace BaseRequest

/-- Model of `BaseRequest.parse_json_payload`: decode the payload with
`errors="replace"` (which never raises) and JSON-parse the result; a
`ValueError` from `json.loads` becomes `PixivError("Invalid server response")`. -/
def parse_json_payload (payload : Payload) : Except PErr JSONValue :=
  match loads (String.mk (decodeUtf8Replace payload)) with
  | some v => .ok v
  | none => .error (.pixivError "Invalid server response")

/-- Lookup with a default, as `dict.get(key, default)`. -/
def dictGet (fields : JSONObject) (key : String) (default : JSONValue) : JSONValue :=
  (fields.lookup key).getD default

/-- Exact keyword-argument match: calling a constructor whose parameters are
exactly `names` with `**fields` succeeds iff the keys are exactly `names`. -/
def kwargsExact (fields : JSONObject) (names : List String) : Bool :=
  names.all (fun n => fields.hasKey n) && fields.keys.all (fun k => names.contains k)

/-- The attempted decodes `APIErrorDetail(**response_data)` and, on a
`TypeError`, `APIError(**response_data)`; both failing leaves `None`. -/
def tryApiErrors (efields : JSONObject) : Option PErr :=
  if kwargsExact efields ["user_message", "message", "reason", "user_message_details"] then
    some (.apiErrorDetail (dictGet efields "user_message" .null) (dictGet efields "message" .null)
      (dictGet efields "reason" .null) (dictGet efields "user_message_details" .null))
  else if kwargsExact efields ["error", "message", "body"] then
    some (.apiError (dictGet efields "error" .null) (dictGet efields "message" .null)
      (dictGet efields "body" .null))
  else none

/-- Python stores the raw `message` object in the raised error; the claims
only exercise string messages, for which this is exact. -/
def messageText : JSONValue → String
  | .str s => s
  | v => dumps v

/-- The `try` block of `_parse_error`: index the parsed payload with
`["error"]`, read `.get("message", "Unknown HTTPError")` and attempt the two
structured error shapes.  `PixivError` and `KeyError` are caught and leave
`(None, "")`; a `TypeError` from indexing a non-dict payload and an
`AttributeError` from `.get` on a non-dict error value are NOT caught and
propagate. -/
def parseErrorEnvelope (payload : Payload) : Except PyExc (Option PErr × JSONValue) :=
  match parse_json_payload payload with
  | .error _ => .ok (none, .str "")
  | .ok (.obj fields) =>
    match fields.lookup "error" with
    | none => .ok (none, .str "")
    | some (.obj efields) =>
      .ok (tryApiErrors efields, dictGet efields "message" (.str "Unknown HTTPError"))
    | some _ => .error (.attributeError "object has no attribute get")
  | .ok (.arr _) => .error (.typeError "list indices must be integers or slices, not str")
  | .ok _ => .error (.typeError "value is not subscriptable")

/-- Observable side effects of the modelled operations. -/
inductive Effect where
  | networkRequest
  | networkRead
  | debuggerBreak
deriving DecidableEq

/-- Model of `BaseRequest._parse_error`.  The `HTTPStatus.BAD_REQUEST` branch
of the source executes a leftover ipdb set-trace debug call before building
the `BadRequest` error: when the ipdb module is importable this suspends into
an interactive debugger (recorded as the `debuggerBreak` effect), otherwise
the attempted module load raises `ModuleNotFoundError`. -/
def parse_error (ipdbInstalled : Bool) (code : Nat) (payload : Payload) :
    Except PyExc (Option PErr × PErr) × List Effect :=
  match parseErrorEnvelope payload with
  | .error e => (.error e, [])
  | .ok (api_error, message) =>
    match code with
    | 403 => (.ok (api_error, .forbidden (messageText message)), [])
    | 404 => (.ok (api_error, .notFound (messageText message)), [])
    | 400 =>
      if ipdbInstalled then (.ok (api_error, .badRequest (messageText message)), [.debuggerBreak])
      else (.error (.moduleNotFoundError "ipdb"), [])
    | 502 => (.ok (api_error, .networkError "Bad Gateway - Invalid response from server"), [])
    | c =>
      (.ok (api_error, .networkError
        ((if jsonTruthy message then messageText message else "NetworkError") ++ " (" ++ Nat.repr c ++ ")")), [])

/-- Outcome of one `do_request` call of the underlying HTTP backend. -/
inductive TransportOutcome where
  | success (code : Nat) (payload : Payload)
  | pixivFailure (e : PErr)
  | cancelled
  | otherFailure (text : String)
deriving DecidableEq

/-- Model of `BaseRequest.request`: run the backend, translate unknown
exceptions, return the payload on a 2xx status and otherwise raise the error
classified by `_parse_error` (the structured API error when one decoded,
chained from the HTTP-status error). -/
def request (ipdbInstalled : Bool) (transport : TransportOutcome) :
    Except PyExc Payload × List Effect :=
  match transport with
  | .cancelled => (.error .cancelledError, [.networkRequest])
  | .pixivFailure e => (.error (.pixiv e), [.networkRequest])
  | .otherFailure t => (.error (.pixiv (.pixivError ("Unknown error in HTTP request " ++ t))), [.networkRequest])
  | .success code payload =>
    if 200 ≤ code ∧ code ≤ 299 then (.ok payload, [.networkRequest])
    else
      match parse_error ipdbInstalled code payload with
      | (.error e, effs) => (.error e, .networkRequest :: effs)
      | (.ok (some api_error, _), effs) => (.error (.pixiv api_error), .networkRequest :: effs)
      | (.ok (none, error), effs) => (.error (.pixiv error), .networkRequest :: effs)

end BaseRequest

/-!
Parameter marshalling, `aiopixiv/request/_requestparameters.py` and
`aiopixiv/request/_inputfile.py`.

`InputFile` is modelled by its three observable fields; `field_tuple()`
returns exactly `(filename, content, mimetype)`.  The lazy byte loading and
mimetype guessing of the constructor are not exercised by any claim and the
content is carried eagerly.
-/

structure InputFile where
  filename : String
  content : Payload
  mimetype : String
deriving DecidableEq

abbrev FieldTuple := String × Payload × String

def InputFile.field_tuple (f : InputFile) : FieldTuple :=
  (f.filename, f.content, f.mimetype)

/-!
Python values that can be handed to `RequestParameter.from_input`.
`none` is Python's `None`; a `datetime` is carried as its Unix timestamp; a
`pixivObject` is a domain object carried as its `to_dict()` field list.
-/

mutual

inductive PyValue where
  | str (s : String) : PyValue
  | int (n : Int) : PyValue
  | bool (b : Bool) : PyValue
  | none : PyValue
  | list (elems : PyList) : PyValue
  | dict (fields : PyFields) : PyValue
  | datetime (timestamp : Int) : PyValue
  | pixivObject (fields : PyFields) : PyValue
  | inputFile (f : InputFile) : PyValue

inductive PyList where
  | nil : PyList
  | cons (hd : PyValue) (tl : PyList) : PyList

inductive PyFields where
  | nil : PyFields
  | cons (key : String) (val : PyValue) (tl : PyFields) : PyFields

end

deriving instance DecidableEq for PyValue, PyList, PyFields

def PyList.ofList : List PyValue → PyList
  | [] => .nil
  | v :: vs => .cons v (PyList.ofList vs)

/-- Modelled from the spec: the helper `to_timestamp` lives in
`aiopixiv/_utils/datetime.py`, which is absent from the provided sources;
section 4.1 states that date/time values are converted to an integer Unix
timestamp, and the model carries a datetime as exactly that integer. -/
def to_timestamp (timestamp : Int) : Int := timestamp

/-!
`pyToJson` models Python `json.dumps` applicability on raw parameter values:
`some` is the JSON value that would be serialised, `none` means `json.dumps`
raises `TypeError` (datetimes, domain objects and files are not JSON
serialisable by default).
-/

mutual

def pyToJson : PyValue → Option JSONValue
  | .str s => some (.str s)
  | .int n => some (.int n)
  | .bool b => some (.bool b)
  | .none => some .null
  | .list elems => (pyToJsonList elems).map JSONValue.arr
  | .dict fields => (pyToJsonFields fields).map JSONValue.obj
  | .datetime _ => none
  | .pixivObject _ => none
  | .inputFile _ => none

def pyToJsonList : PyList → Option JSONArray
  | .nil => some .nil
  | .cons v vs =>
    match pyToJson v, pyToJsonList vs with
    | some j, some js => some (.cons j js)
    | _, _ => none

def pyToJsonFields : PyFields → Option JSONObject
  | .nil => some .nil
  | .cons k v kvs =>
    match pyToJson v, pyToJsonFields kvs with
    | some j, some js => some (.cons k j js)
    | _, _ => none

end

/-- Association-list update with Python `dict` semantics: an existing key
keeps its position and gets the new value, a new key is appended. -/
def alistUpdate {α : Type} (d : List (String × α)) (key : String) (v : α) : List (String × α) :=
  match d with
  | [] => [(key, v)]
  | (k, w) :: tl => if k = key then (k, v) :: tl else (k, w) :: alistUpdate tl key v

/-- Python `dict.update`: fold the right dict into the left one. -/
def alistMerge {α : Type} (d e : List (String × α)) : List (String × α) :=
  e.foldl (fun acc kv => alistUpdate acc kv.1 kv.2) d

structure RequestParameter where
  name : String
  value : Option PyValue
  input_files : Option (List InputFile)
deriving DecidableEq

namespace RequestParameter

/-- Model of `RequestParameter._value_and_input_files_from_input`: datetimes
become timestamps, an `InputFile` is extracted with no JSON value, a domain
object contributes its `to_dict()`, everything else (including `None`) passes
through unchanged.  The returned `Option` is `none` exactly when Python
returns `None` for the value. -/
def valueAndInputFilesFromInput : PyValue → Option PyValue × List InputFile
  | .datetime ts => (some (.int (to_timestamp ts)), [])
  | .inputFile f => (none, [f])
  | .pixivObject fields => (some (.dict fields), [])
  | .none => (none, [])
  | v => (some v, [])

/-- The `param_values` accumulator of the sequence branch of `from_input`:
element representations in order, skipping elements whose representation is
`None`. -/
def seqParamValues : PyList → PyList
  | .nil => .nil
  | .cons e tl =>
    match (valueAndInputFilesFromInput e).1 with
    | some v => .cons v (seqParamValues tl)
    | none => seqParamValues tl

/-- The `input_files` accumulator of the sequence branch of `from_input`:
all extracted files across elements, concatenated in order. -/
def seqInputFiles : PyList → List InputFile
  | .nil => []
  | .cons e tl => (valueAndInputFilesFromInput e).2 ++ seqInputFiles tl

/-- Model of `RequestParameter.from_input`.  A sequence (that is neither a
string nor bytes) expands element-wise; anything else is converted directly.
An empty extracted-file list is stored as `None`. -/
def from_input (key : String) (value : PyValue) : RequestParameter :=
  match value with
  | .list elems =>
    let files := seqInputFiles elems
    { name := key, value := some (.list (seqParamValues elems)),
      input_files := if files.isEmpty then none else some files }
  | v =>
    let (param_value, files) := valueAndInputFilesFromInput v
    { name := key, value := param_value,
      input_files := if files.isEmpty then none else some files }

/-- Model of the `json_value` property: a string value passes through
unencoded, `None` gives no value, anything else is `json.dumps`-ed (which
raises `TypeError` on non-serialisable values). -/
def json_value (p : RequestParameter) : Except PyExc (Option String) :=
  match p.value with
  | some (.str s) => .ok (some s)
  | none => .ok none
  | some v =>
    match pyToJson v with
    | some j => .ok (some (dumps j))
    | none => .error (.typeError "Object is not JSON serializable")

/-- Model of the `multipart_data` coroutine: `None` when there are no files,
otherwise the dict comprehension keyed by the parameter name, one assignment
per file, so later files overwrite earlier ones. -/
def multipart_data (p : RequestParameter) : Option (List (String × FieldTuple)) :=
  match p.input_files with
  | none => none
  | some [] => none
  | some files => some (files.foldl (fun d f => alistUpdate d p.name f.field_tuple) [])

end RequestParameter

namespace RequestData

def jsonParametersGo : List RequestParameter → List (String × String) →
    Except PyExc (List (String × String))
  | [], acc => .ok acc
  | p :: ps, acc =>
    match p.json_value with
    | .error e => .error e
    | .ok none => jsonParametersGo ps acc
    | .ok (some s) => jsonParametersGo ps (alistUpdate acc p.name s)

/-- Model of `RequestData.json_parameters`: name-to-encoded-value dict,
omitting parameters whose JSON value is `None`. -/
def json_parameters (parameters : List RequestParameter) :
    Except PyExc (List (String × String)) :=
  jsonParametersGo parameters []

def multipartDataGo : List RequestParameter → List (String × FieldTuple) →
    List (String × FieldTuple)
  | [], acc => acc
  | p :: ps, acc =>
    match p.multipart_data with
    | none => multipartDataGo ps acc
    | some d => multipartDataGo ps (alistMerge acc d)

/-- Model of `RequestData.multipart_data`: merge every parameter's file dict
into one upload table. -/
def multipart_data (parameters : List RequestParameter) : List (String × FieldTuple) :=
  multipartDataGo parameters []

end RequestData

/-!
Authentication models, `aiopixiv/models/authentication.py` together with the
generic machinery of `aiopixiv/_pixivobject.py`.  Python never type checks
constructor arguments, so scalar fields carry raw JSON values; `de_json`
returning `None` and exceptions raised during deserialisation are modelled
explicitly.
-/

/-- Model of `PixivObject._parse_data`: `None` stays `None`, otherwise the
input is `.copy()`-ed, which succeeds for dicts and lists and raises
`AttributeError` for scalars and strings. -/
def PixivObject.parse_data (data : JSONValue) : Except PyExc (Option JSONValue) :=
  match data with
  | .null => .ok none
  | .obj fields => .ok (some (.obj fields))
  | .arr elems => .ok (some (.arr elems))
  | _ => .error (.attributeError "object has no attribute copy")

/-- Keyword-argument construction `cls(**data)`: `data` must be a dict whose
keys are exactly `names`, otherwise `TypeError`. -/
def kwargsCheck (v : JSONValue) (names : List String) : Except PyExc JSONObject :=
  match v with
  | .obj fields =>
    if BaseRequest.kwargsExact fields names then .ok fields
    else .error (.typeError "keyword argument mismatch")
  | _ => .error (.typeError "argument after ** must be a mapping")

structure AuthenticatedUserImageUrls where
  px_16x16 : JSONValue
  px_50x50 : JSONValue
  px_170x170 : JSONValue
deriving DecidableEq

def AuthenticatedUserImageUrls.de_json (data : JSONValue) :
    Except PyExc (Option AuthenticatedUserImageUrls) :=
  match PixivObject.parse_data data with
  | .error e => .error e
  | .ok none => .ok none
  | .ok (some d) =>
    if jsonTruthy d = false then .ok none
    else
      match kwargsCheck d ["px_16x16", "px_50x50", "px_170x170"] with
      | .error e => .error e
      | .ok fields =>
        .ok (some ⟨BaseRequest.dictGet fields "px_16x16" .null,
          BaseRequest.dictGet fields "px_50x50" .null,
          BaseRequest.dictGet fields "px_170x170" .null⟩)

structure AuthenticatedUser where
  id : JSONValue
  name : JSONValue
  account : JSONValue
  profile_image_urls : Option AuthenticatedUserImageUrls
  mail_address : JSONValue
  is_mail_authorized : JSONValue
  is_premium : JSONValue
  x_restrict : JSONValue
deriving DecidableEq

/-- Model of `AuthenticatedUser.de_json`: after `_parse_data` and the
falsiness check, `data.pop("profile_image_urls")` raises `KeyError` when the
key is missing, the sub-object is deserialised, and `cls(**data)` requires
exactly the declared parameter names. -/
def AuthenticatedUser.de_json (data : JSONValue) : Except PyExc (Option AuthenticatedUser) :=
  match PixivObject.parse_data data with
  | .error e => .error e
  | .ok none => .ok none
  | .ok (some d) =>
    if jsonTruthy d = false then .ok none
    else
      match d with
      | .obj fields =>
        match fields.lookup "profile_image_urls" with
        | none => .error (.keyError "profile_image_urls")
        | some pv =>
          match AuthenticatedUserImageUrls.de_json pv with
          | .error e => .error e
          | .ok purls =>
            let fields2 := fields.erase "profile_image_urls"
            if BaseRequest.kwargsExact fields2
                ["id", "name", "account", "mail_address", "is_mail_authorized", "is_premium", "x_restrict"] then
              .ok (some ⟨BaseRequest.dictGet fields2 "id" .null,
                BaseRequest.dictGet fields2 "name" .null,
                BaseRequest.dictGet fields2 "account" .null,
                purls,
                BaseRequest.dictGet fields2 "mail_address" .null,
                BaseRequest.dictGet fields2 "is_mail_authorized" .null,
                BaseRequest.dictGet fields2 "is_premium" .null,
                BaseRequest.dictGet fields2 "x_restrict" .null⟩)
            else .error (.typeError "keyword argument mismatch")
      | _ => .error (.typeError "pop argument must be an integer")

structure Authentication where
  access_token : JSONValue
  refresh_token : JSONValue
  expires_in : JSONValue
  user : Option AuthenticatedUser
  token_type : JSONValue
  scope : JSONValue
deriving DecidableEq

/-- Model of `Authentication.de_json`: after `_parse_data` and the falsiness
check, `data.pop("response")` raises `KeyError` when the key is missing (it is
removed unconditionally), then `data.pop("user")` likewise, the user is
deserialised, and `cls(**data)` requires exactly the declared names. -/
def Authentication.de_json (data : JSONValue) : Except PyExc (Option Authentication) :=
  match PixivObject.parse_data data with
  | .error e => .error e
  | .ok none => .ok none
  | .ok (some d) =>
    if jsonTruthy d = false then .ok none
    else
      match d with
      | .obj fields =>
        match fields.lookup "response" with
        | none => .error (.keyError "response")
        | some _ =>
          let fields1 := fields.erase "response"
          match fields1.lookup "user" with
          | none => .error (.keyError "user")
          | some uv =>
            match AuthenticatedUser.de_json uv with
            | .error e => .error e
            | .ok user =>
              let fields2 := fields1.erase "user"
              if BaseRequest.kwargsExact fields2
                  ["access_token", "refresh_token", "expires_in", "token_type", "scope"] then
                .ok (some ⟨BaseRequest.dictGet fields2 "access_token" .null,
                  BaseRequest.dictGet fields2 "refresh_token" .null,
                  BaseRequest.dictGet fields2 "expires_in" .null,
                  user,
                  BaseRequest.dictGet fields2 "token_type" .null,
                  BaseRequest.dictGet fields2 "scope" .null⟩)
              else .error (.typeError "keyword argument mismatch")
      | _ => .error (.typeError "pop argument must be an integer")

/-!
The API facade, `aiopixiv/_api.py`.  The credential state is the triple of
slots mutated by `authenticate`; the tokens are annotated `Optional[str]` in
the source but assigned unchecked from the response, so they carry raw JSON
values with `null` standing for `None`.
-/

structure PixivAPI where
  _access_token : JSONValue
  _refresh_token : JSONValue
  _authenticated_user : Option AuthenticatedUser
deriving DecidableEq

/-- Model of the `is_authenticated` property: `bool(access and refresh)`. -/
def PixivAPI.is_authenticated (api : PixivAPI) : Bool :=
  jsonTruthy api._access_token && jsonTruthy api._refresh_token

/-- Truthiness of the optional `refresh_token` argument. -/
def optStrTruthy : Option String → Bool
  | none => false
  | some s => decide (s ≠ "")

/-- Outcome of the `_do_request` posted by `authenticate`. -/
inductive AuthTransportOutcome where
  | success (body : JSONValue)
  | pixivFailure (e : PErr)
  | otherFailure (text : String)
deriving DecidableEq

/-- Model of `PixivAPI.authenticate`.  The missing-token precondition raises
`AttributeError` before any request; a `PixivError` from the transport or a
`None` deserialisation become the "could not authenticate" error; any other
exception (`KeyError`, `TypeError`, `AttributeError` from `de_json`, or a
non-Pixiv transport failure) becomes the "unsupported data" error; on success
the three credential slots are replaced from the response.  The returned
triple is (outcome, state after the call, effects). -/
def PixivAPI.authenticate (api : PixivAPI) (refresh_token : Option String)
    (transport : AuthTransportOutcome) :
    Except PyExc Unit × PixivAPI × List BaseRequest.Effect :=
  if optStrTruthy refresh_token = false ∧ jsonTruthy api._refresh_token = false then
    (.error (.attributeError
      "Either \"refresh_token\" (auth argument) or \"self._refresh_token\" (during init) have to be set."),
      api, [])
  else
    match transport with
    | .pixivFailure _ =>
      (.error (.pixiv (.authenticationError "Could not authenticate with the given refresh token")),
        api, [.networkRequest])
    | .otherFailure _ =>
      (.error (.pixiv (.authenticationError "Unsupported data returned from authentication endpoint")),
        api, [.networkRequest])
    | .success body =>
      match Authentication.de_json body with
      | .error (.pixiv _) =>
        (.error (.pixiv (.authenticationError "Could not authenticate with the given refresh token")),
          api, [.networkRequest])
      | .error _ =>
        (.error (.pixiv (.authenticationError "Unsupported data returned from authentication endpoint")),
          api, [.networkRequest])
      | .ok none =>
        (.error (.pixiv (.authenticationError "Could not authenticate with the given refresh token")),
          api, [.networkRequest])
      | .ok (some auth) =>
        (.ok (), ⟨auth.access_token, auth.refresh_token, auth.user⟩, [.networkRequest])

/-!
Download helpers of `aiopixiv/_api.py`.  The filesystem is a map from paths
to byte contents plus a set of directories; network reads are recorded as
effects.
-/

structure FS where
  files : List (String × Payload)
  dirs : List String
deriving DecidableEq

def FS.is_file (fs : FS) (path : String) : Bool :=
  (fs.files.lookup path).isSome

/-- Directory creation with `parents=True, exist_ok=True`: never touches
`files`. -/
def FS.mkdirParents (fs : FS) (dir : String) : FS :=
  if fs.dirs.contains dir then fs else { fs with dirs := dir :: fs.dirs }

def splitOnChar (c : Char) : List Char → List (List Char)
  | [] => [[]]
  | x :: xs =>
    match splitOnChar c xs with
    | [] => [[x]]
    | seg :: rest => if x = c then [] :: seg :: rest else (x :: seg) :: rest

/-- Last path segment of a URL (query dropped), the model of
`yarl.URL(url).name` for the download URLs the client handles. -/
def urlName (url : String) : String :=
  String.mk ((splitOnChar '/' ((splitOnChar '?' url.data).headD [])).getLastD [])

/-- Path resolution `Path(str(dir_path or "")).absolute()`. -/
def absolutePath (cwd p : String) : String :=
  if p = "" then cwd
  else
    match p.data with
    | '/' :: _ => p
    | _ => cwd ++ "/" ++ p

def joinPath (dir name : String) : String := dir ++ "/" ++ name

/-- Model of `PixivAPI.download` feeding a sink: building the bearer header
raises `NotAuthenticated` when authentication is required without an access
token; otherwise the URL's content is streamed (one `networkRead`). -/
def PixivAPI.download (api : PixivAPI) (needs_authentication : Bool) (content : Payload) :
    Except PyExc Payload × List BaseRequest.Effect :=
  if needs_authentication = true ∧ jsonTruthy api._access_token = false then
    (.error (.pixiv (.notAuthenticated "You need to be authenticated for this request")), [])
  else (.ok content, [.networkRead])

/-- Model of `PixivAPI.download_to_file`: resolve the directory, default the
file name from the URL, create the directory, and either return the existing
path untouched (`skip_existing` and the file exists) or open-truncate the
destination and stream the download into it.  The returned triple is
(outcome, filesystem after the call, effects). -/
def PixivAPI.download_to_file (api : PixivAPI) (fs : FS) (cwd : String)
    (url : String) (dir_path : Option String) (file_name : Option String)
    (skip_existing : Bool) (needs_authentication : Bool) (content : Payload) :
    Except PyExc String × FS × List BaseRequest.Effect :=
  let dir := absolutePath cwd (dir_path.getD "")
  let name := file_name.getD (urlName url)
  let fs1 := fs.mkdirParents dir
  let path := joinPath dir name
  if skip_existing && fs1.is_file path then (.ok path, fs1, [])
  else
    match api.download needs_authentication content with
    | (.error e, effs) => (.error e, { fs1 with files := alistUpdate fs1.files path [] }, effs)
    | (.ok bytes, effs) => (.ok path, { fs1 with files := alistUpdate fs1.files path bytes }, effs)

/-!
Functions written from the spec's wording, used to state the claims; they are
compared against the functions modelled from the source above.
-/

/-- The spec's element representation inside a sequence parameter: a file
element contributes no JSON entry, a datetime contributes its integer
timestamp, a domain object its dictionary form, a `None` nothing, and any
other element itself. -/
def specElemRep : PyValue → Option PyValue
  | .inputFile _ => none
  | .none => none
  | .datetime ts => some (.int ts)
  | .pixivObject fields => some (.dict fields)
  | v => some v

def specElemReps : PyList → PyList
  | .nil => .nil
  | .cons e tl =>
    match specElemRep e with
    | some v => .cons v (specElemReps tl)
    | none => specElemReps tl

/-- The file elements of a sequence, in original order. -/
def specFileElems : PyList → List InputFile
  | .nil => []
  | .cons (.inputFile f) tl => f :: specFileElems tl
  | .cons _ tl => specFileElems tl

/-- A stored token that is either a string or `None`, as the `Optional[str]`
annotation of the token slots describes. -/
def tokenValue : Option String → JSONValue
  | none => .null
  | some s => .str s

/-!
Concrete fixtures shared by witnesses and counterexamples.
-/

/-- The bytes of `b"\x7b\x7d"`, an empty JSON object body. -/
def emptyObjPayload : Payload := [123, 125]

/-- A fully populated `user` object for the authentication response. -/
def userBodyFixture : JSONValue :=
  .obj (.cons "id" (.int 1) (.cons "name" (.str "n") (.cons "account" (.str "acc")
    (.cons "profile_image_urls" (.obj (.cons "px_16x16" (.str "u1")
      (.cons "px_50x50" (.str "u2") (.cons "px_170x170" (.str "u3") .nil))))
    (.cons "mail_address" (.str "m") (.cons "is_mail_authorized" (.bool true)
    (.cons "is_premium" (.bool false) (.cons "x_restrict" (.int 2) .nil))))))))

/-- A well-formed authentication success body. -/
def okBodyFixture : JSONValue :=
  .obj (.cons "response" .null (.cons "access_token" (.str "newA")
    (.cons "refresh_token" (.str "newR") (.cons "expires_in" (.int 3600)
    (.cons "user" userBodyFixture (.cons "token_type" (.str "bearer")
    (.cons "scope" (.str "") .nil)))))))

/-- An authentication body with exactly the six documented fields and no
`"response"` key. -/
def documentedBodyFixture : JSONValue :=
  .obj (.cons "access_token" (.str "a") (.cons "refresh_token" (.str "r")
    (.cons "expires_in" (.int 3600) (.cons "user" userBodyFixture
    (.cons "token_type" (.str "bearer") (.cons "scope" (.str "") .nil))))))

/-!
Lemmas establishing that `loads` inverts `dumps`, the round-trip property of
the modelled `json` module that claim C4 relies on.
-/

theorem char_eq_of_toNat_eq {c d : Char} (h : c.toNat = d.toNat) : c = d :=
  Char.eq_of_val_eq (UInt32.ext h)

theorem char_toNat_ofNat {n : Nat} (h : n.isValidChar) : (Char.ofNat n).toNat = n := by
  unfold Char.ofNat
  rw [dif_pos h]
  rfl

theorem char_ofNat_toNat {c : Char} (h : c.toNat < 55296) : Char.ofNat c.toNat = c :=
  char_eq_of_toNat_eq (char_toNat_ofNat (Or.inl h))

theorem isDigitChar_digitChar (d : Nat) : isDigitChar (digitChar d) = true := by
  match d with
  | 0 | 1 | 2 | 3 | 4 | 5 | 6 | 7 | 8 => decide
  | e + 9 =>
    show isDigitChar '9' = true
    decide

theorem digitValue_digitChar {d : Nat} (h : d < 10) : digitValue (digitChar d) = d := by
  interval_cases d <;> decide

theorem hexValue_hexDigitChar {d : Nat} (h : d < 16) : hexValue (hexDigitChar d) = some d := by
  interval_cases d <;> decide

theorem natToCharsAux_zero (fuel : Nat) (acc : List Char) : natToCharsAux fuel 0 acc = acc := by
  cases fuel <;> simp [natToCharsAux]

theorem natToCharsAux_append (fuel : Nat) : ∀ n acc,
    natToCharsAux fuel n acc = natToCharsAux fuel n [] ++ acc := by
  induction fuel with
  | zero => intro n acc; simp [natToCharsAux]
  | succ f ih =>
    intro n acc
    by_cases h : n = 0
    · simp [natToCharsAux, h]
    · simp only [natToCharsAux, if_neg h]
      rw [ih (n / 10) (digitChar (n % 10) :: acc), ih (n / 10) [digitChar (n % 10)]]
      simp

theorem natToCharsAux_digits (fuel : Nat) : ∀ n c, c ∈ natToCharsAux fuel n [] →
    isDigitChar c = true := by
  induction fuel with
  | zero => intro n c h; simp [natToCharsAux] at h
  | succ f ih =>
    intro n c h
    by_cases hn : n = 0
    · simp [natToCharsAux, hn] at h
    · rw [show natToCharsAux (f + 1) n [] = natToCharsAux f (n / 10) [] ++ [digitChar (n % 10)] by
        simp only [natToCharsAux, if_neg hn]; exact natToCharsAux_append f (n / 10) _] at h
      rcases List.mem_append.mp h with h1 | h1
      · exact ih _ _ h1
      · simp only [List.mem_singleton] at h1
        subst h1
        exact isDigitChar_digitChar _

theorem natToCharsAux_ne_nil (f n : Nat) (hn : n ≠ 0) : natToCharsAux (f + 1) n [] ≠ [] := by
  rw [show natToCharsAux (f + 1) n [] = natToCharsAux f (n / 10) [] ++ [digitChar (n % 10)] by
    simp only [natToCharsAux, if_neg hn]; exact natToCharsAux_append f (n / 10) _]
  simp

theorem natToCharsAux_foldl (fuel : Nat) : ∀ n a, 0 < n → n ≤ fuel →
    List.foldl (fun x c => 10 * x + digitValue c) a (natToCharsAux fuel n []) =
      a * 10 ^ (natToCharsAux fuel n []).length + n := by
  induction fuel with
  | zero => intro n a h1 h2; omega
  | succ f ih =>
    intro n a h1 h2
    have hn : n ≠ 0 := by omega
    rw [show natToCharsAux (f + 1) n [] = natToCharsAux f (n / 10) [] ++ [digitChar (n % 10)] by
      simp only [natToCharsAux, if_neg hn]; exact natToCharsAux_append f (n / 10) _]
    have hmod : n % 10 < 10 := Nat.mod_lt n (by norm_num)
    by_cases h10 : n / 10 = 0
    · have hlt : n < 10 := by omega
      rw [h10, natToCharsAux_zero]
      simp only [List.foldl, List.length_singleton, pow_one, List.nil_append]
      rw [digitValue_digitChar hmod]
      omega
    · have hle : n / 10 ≤ f := by
        have := Nat.div_lt_self h1 (by norm_num : 1 < 10)
        omega
      rw [List.foldl_append, ih (n / 10) a (by omega) hle]
      simp only [List.foldl, List.length_append, List.length_singleton]
      rw [digitValue_digitChar hmod]
      have hpow : 10 * (a * 10 ^ (natToCharsAux f (n / 10) []).length) =
          a * 10 ^ ((natToCharsAux f (n / 10) []).length + 1) := by
        rw [pow_succ]; ring
      omega

theorem parseDigitsAux_noDigit (a : Nat) (rest : List Char) (h : noDigitStart rest = true) :
    parseDigitsAux a rest = (a, rest) := by
  cases rest with
  | nil => rfl
  | cons c cs =>
    simp only [noDigitStart, Bool.not_eq_true'] at h
    simp [parseDigitsAux, h]

theorem parseDigitsAux_digits : ∀ (ds : List Char), (∀ c ∈ ds, isDigitChar c = true) →
    ∀ a rest, noDigitStart rest = true →
    parseDigitsAux a (ds ++ rest) = (List.foldl (fun x c => 10 * x + digitValue c) a ds, rest) := by
  intro ds
  induction ds with
  | nil =>
    intro _ a rest h
    simpa [List.foldl] using parseDigitsAux_noDigit a rest h
  | cons c cs ih =>
    intro hall a rest h
    have hc : isDigitChar c = true := hall c (by simp)
    simp only [List.cons_append, parseDigitsAux, hc, if_pos, List.foldl]
    exact ih (fun x hx => hall x (by simp [hx])) _ rest h

theorem natToChars_digits (n : Nat) : ∀ c ∈ natToChars n, isDigitChar c = true := by
  intro c hc
  unfold natToChars at hc
  by_cases hn : n = 0
  · rw [if_pos hn] at hc
    simp only [List.mem_singleton] at hc
    subst hc; decide
  · rw [if_neg hn] at hc
    exact natToCharsAux_digits n n c hc

theorem natToChars_ne_nil (n : Nat) : natToChars n ≠ [] := by
  unfold natToChars
  by_cases hn : n = 0
  · simp [hn]
  · rw [if_neg hn]
    have : 0 < n := by omega
    rcases n with _ | m
    · omega
    · exact natToCharsAux_ne_nil m (m + 1) hn

theorem natToChars_foldl (n : Nat) :
    List.foldl (fun x c => 10 * x + digitValue c) 0 (natToChars n) = n := by
  unfold natToChars
  by_cases hn : n = 0
  · simp [hn, List.foldl, digitValue]
  · rw [if_neg hn]
    rw [natToCharsAux_foldl n n 0 (by omega) (le_refl n)]
    simp

theorem parseNat_natToChars (n : Nat) (rest : List Char) (h : noDigitStart rest = true) :
    parseNat (natToChars n ++ rest) = some (n, rest) := by
  obtain ⟨c, cs, hds⟩ : ∃ c cs, natToChars n = c :: cs := by
    rcases hl : natToChars n with _ | ⟨c, cs⟩
    · exact absurd hl (natToChars_ne_nil n)
    · exact ⟨c, cs, rfl⟩
  have hc : isDigitChar c = true := natToChars_digits n c (by rw [hds]; simp)
  have hsplit : natToChars n ++ rest = c :: (cs ++ rest) := by rw [hds]; rfl
  rw [hsplit]
  simp only [parseNat, hc, if_pos]
  rw [show c :: (cs ++ rest) = natToChars n ++ rest by rw [hsplit]]
  rw [parseDigitsAux_digits (natToChars n) (natToChars_digits n) 0 rest h]
  rw [natToChars_foldl n]

theorem parseStringBody_escString : ∀ (cs rest : List Char),
    parseStringBody (escString cs ++ ('"' :: rest)) = some (cs, rest) := by
  intro cs
  induction cs with
  | nil =>
    intro rest
    show parseStringBody ('"' :: rest) = some ([], rest)
    rw [parseStringBody.eq_def]
    rfl
  | cons c cs ih =>
    intro rest
    show parseStringBody ((escChar c ++ escString cs) ++ ('"' :: rest)) = some (c :: cs, rest)
    rw [List.append_assoc]
    by_cases h1 : c = '"'
    · subst h1
      rw [show escChar '"' = ['\\', '"'] from rfl]
      simp only [List.cons_append, List.nil_append]
      rw [show parseStringBody ('\\' :: '"' :: (escString cs ++ '"' :: rest)) =
        (parseStringBody (escString cs ++ '"' :: rest)).map (fun p => ('"' :: p.1, p.2)) by
          rw [parseStringBody.eq_def]; rfl, ih]
      rfl
    · by_cases h2 : c = '\\'
      · subst h2
        rw [show escChar '\\' = ['\\', '\\'] by unfold escChar; rw [if_neg h1]; rfl]
        simp only [List.cons_append, List.nil_append]
        rw [show parseStringBody ('\\' :: '\\' :: (escString cs ++ '"' :: rest)) =
          (parseStringBody (escString cs ++ '"' :: rest)).map (fun p => ('\\' :: p.1, p.2)) by
            rw [parseStringBody.eq_def]; rfl, ih]
        rfl
      · by_cases h3 : c = '\n'
        · subst h3
          rw [show escChar '\n' = ['\\', 'n'] by unfold escChar; rw [if_neg h1, if_neg h2]; rfl]
          simp only [List.cons_append, List.nil_append]
          rw [show parseStringBody ('\\' :: 'n' :: (escString cs ++ '"' :: rest)) =
            (parseStringBody (escString cs ++ '"' :: rest)).map (fun p => ('\n' :: p.1, p.2)) by
              rw [parseStringBody.eq_def]; rfl, ih]
          rfl
        · by_cases h4 : c = '\t'
          · subst h4
            rw [show escChar '\t' = ['\\', 't'] by
              unfold escChar; rw [if_neg h1, if_neg h2, if_neg h3]; rfl]
            simp only [List.cons_append, List.nil_append]
            rw [show parseStringBody ('\\' :: 't' :: (escString cs ++ '"' :: rest)) =
              (parseStringBody (escString cs ++ '"' :: rest)).map (fun p => ('\t' :: p.1, p.2)) by
                rw [parseStringBody.eq_def]; rfl, ih]
            rfl
          · by_cases h5 : c = '\r'
            · subst h5
              rw [show escChar '\r' = ['\\', 'r'] by
                unfold escChar; rw [if_neg h1, if_neg h2, if_neg h3, if_neg h4]; rfl]
              simp only [List.cons_append, List.nil_append]
              rw [show parseStringBody ('\\' :: 'r' :: (escString cs ++ '"' :: rest)) =
                (parseStringBody (escString cs ++ '"' :: rest)).map (fun p => ('\r' :: p.1, p.2)) by
                  rw [parseStringBody.eq_def]; rfl, ih]
              rfl
            · by_cases h6 : c.toNat = 8
              · have hc : Char.ofNat 8 = c := h6 ▸ char_ofNat_toNat (by omega)
                rw [show escChar c = ['\\', 'b'] by
                  unfold escChar; rw [if_neg h1, if_neg h2, if_neg h3, if_neg h4, if_neg h5, if_pos h6]]
                simp only [List.cons_append, List.nil_append]
                rw [show parseStringBody ('\\' :: 'b' :: (escString cs ++ '"' :: rest)) =
                  (parseStringBody (escString cs ++ '"' :: rest)).map
                    (fun p => (Char.ofNat 8 :: p.1, p.2)) by
                      rw [parseStringBody.eq_def]; rfl, ih, hc]
                rfl
              · by_cases h7 : c.toNat = 12
                · have hc : Char.ofNat 12 = c := h7 ▸ char_ofNat_toNat (by omega)
                  rw [show escChar c = ['\\', 'f'] by
                    unfold escChar
                    rw [if_neg h1, if_neg h2, if_neg h3, if_neg h4, if_neg h5, if_neg h6, if_pos h7]]
                  simp only [List.cons_append, List.nil_append]
                  rw [show parseStringBody ('\\' :: 'f' :: (escString cs ++ '"' :: rest)) =
                    (parseStringBody (escString cs ++ '"' :: rest)).map
                      (fun p => (Char.ofNat 12 :: p.1, p.2)) by
                        rw [parseStringBody.eq_def]; rfl, ih, hc]
                  rfl
                · by_cases h8 : c.toNat < 32
                  · have hdiv : c.toNat / 16 < 16 := by omega
                    have hmod : c.toNat % 16 < 16 := by omega
                    have hu : parseUChar '0' '0' (hexDigitChar (c.toNat / 16))
                        (hexDigitChar (c.toNat % 16)) = some c := by
                      unfold parseUChar hex4
                      rw [hexValue_hexDigitChar hdiv, hexValue_hexDigitChar hmod]
                      show (if Nat.isValidChar (4096 * 0 + 256 * 0 + 16 * (c.toNat / 16) + c.toNat % 16)
                          then some (Char.ofNat
                            (4096 * 0 + 256 * 0 + 16 * (c.toNat / 16) + c.toNat % 16))
                          else none) = some c
                      have hval : 4096 * 0 + 256 * 0 + 16 * (c.toNat / 16) + c.toNat % 16 = c.toNat := by
                        omega
                      simp only [hval]
                      rw [if_pos (Or.inl (by omega : c.toNat < 55296) : Nat.isValidChar c.toNat)]
                      rw [char_ofNat_toNat (by omega)]
                    rw [show escChar c = ['\\', 'u', '0', '0', hexDigitChar (c.toNat / 16),
                        hexDigitChar (c.toNat % 16)] by
                      unfold escChar
                      rw [if_neg h1, if_neg h2, if_neg h3, if_neg h4, if_neg h5, if_neg h6, if_neg h7,
                        if_pos h8]]
                    simp only [List.cons_append, List.nil_append]
                    rw [show parseStringBody ('\\' :: 'u' :: '0' :: '0' :: hexDigitChar (c.toNat / 16) ::
                        hexDigitChar (c.toNat % 16) :: (escString cs ++ '"' :: rest)) =
                      (match parseUChar '0' '0' (hexDigitChar (c.toNat / 16))
                          (hexDigitChar (c.toNat % 16)) with
                        | some ch =>
                          (parseStringBody (escString cs ++ '"' :: rest)).map
                            (fun p => (ch :: p.1, p.2))
                        | none => none) by
                          rw [parseStringBody.eq_def]; rfl]
                    rw [hu]
                    show (parseStringBody (escString cs ++ '"' :: rest)).map
                      (fun p => (c :: p.1, p.2)) = some (c :: cs, rest)
                    rw [ih]
                    rfl
                  · rw [show escChar c = [c] by
                      unfold escChar
                      rw [if_neg h1, if_neg h2, if_neg h3, if_neg h4, if_neg h5, if_neg h6, if_neg h7,
                        if_neg h8]]
                    simp only [List.cons_append, List.nil_append]
                    rw [parseStringBody.eq_def]
                    simp only [if_neg h1, if_neg h2, if_neg h8, ih]
                    rfl

theorem skipWs_not_ws {c : Char} (h : isWs c = false) (l : List Char) : skipWs (c :: l) = c :: l := by
  simp [skipWs, h]

theorem skipWs_cons_space (l : List Char) : skipWs (' ' :: l) = skipWs l := by
  simp [skipWs, isWs]

theorem ne_of_digit {c d : Char} (h : isDigitChar c = true) (hd : isDigitChar d = false) : c ≠ d :=
  fun hh => by rw [hh, hd] at h; exact Bool.noConfusion h

theorem isWs_false_of_digit {c : Char} (h : isDigitChar c = true) : isWs c = false := by
  have h1 : ¬(c = ' ') := ne_of_digit h (by decide)
  have h2 : ¬(c = '\t') := ne_of_digit h (by decide)
  have h3 : ¬(c = '\n') := ne_of_digit h (by decide)
  have h4 : ¬(c = '\r') := ne_of_digit h (by decide)
  simp [isWs, h1, h2, h3, h4]

theorem natToChars_head (m : Nat) : ∃ c cs, natToChars m = c :: cs ∧ isDigitChar c = true := by
  rcases hl : natToChars m with _ | ⟨c, cs⟩
  · exact absurd hl (natToChars_ne_nil m)
  · exact ⟨c, cs, rfl, natToChars_digits m c (by rw [hl]; simp)⟩

theorem dumpValue_head (v : JSONValue) : ∃ c cs, dumpValue v = c :: cs ∧ isWs c = false ∧
    c ≠ ']' ∧ c ≠ '\x7d' := by
  cases v with
  | null =>
    refine ⟨'n', _, rfl, ?_, ?_, ?_⟩ <;> decide
  | bool b =>
    cases b with
    | true =>
      refine ⟨'t', _, rfl, ?_, ?_, ?_⟩ <;> decide
    | false =>
      refine ⟨'f', _, rfl, ?_, ?_, ?_⟩ <;> decide
  | int n =>
    by_cases hn : n < 0
    · refine ⟨'-', natToChars n.natAbs, by simp [dumpValue, hn], ?_, ?_, ?_⟩ <;> decide
    · obtain ⟨c, cs, hds, hd⟩ := natToChars_head n.natAbs
      refine ⟨c, cs, by simp [dumpValue, hn, hds], isWs_false_of_digit hd,
        ne_of_digit hd (by decide), ne_of_digit hd (by decide)⟩
  | str s =>
    refine ⟨'"', _, rfl, ?_, ?_, ?_⟩ <;> decide
  | arr a =>
    cases a with
    | nil =>
      refine ⟨'[', _, rfl, ?_, ?_, ?_⟩ <;> decide
    | cons v tl =>
      refine ⟨'[', _, rfl, ?_, ?_, ?_⟩ <;> decide
  | obj o =>
    cases o with
    | nil =>
      refine ⟨'\x7b', _, rfl, ?_, ?_, ?_⟩ <;> decide
    | cons k v tl =>
      refine ⟨'\x7b', _, rfl, ?_, ?_, ?_⟩ <;> decide

theorem skipWs_dumpValue (v : JSONValue) (rest : List Char) :
    skipWs (dumpValue v ++ rest) = dumpValue v ++ rest := by
  obtain ⟨c, cs, hds, hws, _, _⟩ := dumpValue_head v
  rw [hds, List.cons_append, skipWs_not_ws hws]

theorem dropPrefix_append (ps rest : List Char) : dropPrefix ps (ps ++ rest) = some rest := by
  induction ps with
  | nil => rfl
  | cons p ps ih => simp [dropPrefix, ih]

theorem noDigitStart_dumpElems (tl : JSONArray) (rest : List Char) :
    noDigitStart (dumpElems tl ++ (']' :: rest)) = true := by
  cases tl <;> rfl

theorem noDigitStart_dumpMembers (tl : JSONObject) (rest : List Char) :
    noDigitStart (dumpMembers tl ++ ('\x7d' :: rest)) = true := by
  cases tl <;> rfl

theorem one_le_needV (v : JSONValue) : 1 ≤ needV v := by
  cases v <;> simp [needV]

mutual

theorem parse_dump_value (fuel : Nat) (v : JSONValue) (rest : List Char)
    (hfuel : needV v ≤ fuel) (hrest : noDigitStart rest = true) :
    parseValue fuel (dumpValue v ++ rest) = some (v, rest) := by
  obtain ⟨f, hf⟩ : ∃ f, fuel = f + 1 :=
    ⟨fuel - 1, by have := one_le_needV v; omega⟩
  rw [hf]
  cases v with
  | null =>
    show parseValue (f + 1) ('n' :: ('u' :: 'l' :: 'l' :: rest)) = some (.null, rest)
    rw [parseValue.eq_3, if_pos rfl,
      show 'u' :: 'l' :: 'l' :: rest = ['u', 'l', 'l'] ++ rest from rfl, dropPrefix_append]
    rfl
  | bool b =>
    cases b with
    | true =>
      show parseValue (f + 1) ('t' :: ('r' :: 'u' :: 'e' :: rest)) = some (.bool true, rest)
      rw [parseValue.eq_3, if_neg (by decide : ¬('t' = 'n')), if_pos rfl,
        show 'r' :: 'u' :: 'e' :: rest = ['r', 'u', 'e'] ++ rest from rfl, dropPrefix_append]
      rfl
    | false =>
      show parseValue (f + 1) ('f' :: ('a' :: 'l' :: 's' :: 'e' :: rest)) = some (.bool false, rest)
      rw [parseValue.eq_3, if_neg (by decide : ¬('f' = 'n')), if_neg (by decide : ¬('f' = 't')),
        if_pos rfl,
        show 'a' :: 'l' :: 's' :: 'e' :: rest = ['a', 'l', 's', 'e'] ++ rest from rfl,
        dropPrefix_append]
      rfl
  | str s =>
    have hsplit : dumpValue (.str s) ++ rest = '"' :: (escString s.data ++ ('"' :: rest)) := by
      show ('"' :: (escString s.data ++ ['"'])) ++ rest = _
      simp
    rw [hsplit, parseValue.eq_3, if_neg (by decide : ¬('"' = 'n')),
      if_neg (by decide : ¬('"' = 't')), if_neg (by decide : ¬('"' = 'f')), if_pos rfl,
      parseStringBody_escString]
    rfl
  | int n =>
    by_cases hn : n < 0
    · have hsplit : dumpValue (.int n) ++ rest = '-' :: (natToChars n.natAbs ++ rest) := by
        simp [dumpValue, hn]
      rw [hsplit, parseValue.eq_3, if_neg (by decide : ¬('-' = 'n')),
        if_neg (by decide : ¬('-' = 't')), if_neg (by decide : ¬('-' = 'f')),
        if_neg (by decide : ¬('-' = '"')), if_neg (by decide : ¬('-' = '[')),
        if_neg (by decide : ¬('-' = '\x7b')), if_pos rfl,
        parseNat_natToChars _ _ hrest]
      have hval : -((n.natAbs : Nat) : Int) = n := by omega
      show some (JSONValue.int (-((n.natAbs : Nat) : Int)), rest) = some (.int n, rest)
      rw [hval]
    · obtain ⟨c, cs, hds, hd⟩ := natToChars_head n.natAbs
      have hdval : dumpValue (.int n) = c :: cs := by simp [dumpValue, hn, hds]
      rw [hdval, List.cons_append, parseValue.eq_3,
        if_neg (ne_of_digit hd (by decide)), if_neg (ne_of_digit hd (by decide)),
        if_neg (ne_of_digit hd (by decide)), if_neg (ne_of_digit hd (by decide)),
        if_neg (ne_of_digit hd (by decide)), if_neg (ne_of_digit hd (by decide)),
        if_neg (ne_of_digit hd (by decide))]
      rw [show c :: (cs ++ rest) = natToChars n.natAbs ++ rest by
        rw [← List.cons_append, ← hds]]
      rw [parseNat_natToChars _ _ hrest]
      have hval : ((n.natAbs : Nat) : Int) = n := by omega
      show some (JSONValue.int ((n.natAbs : Nat) : Int), rest) = some (.int n, rest)
      rw [hval]
  | arr a =>
    cases a with
    | nil =>
      show parseValue (f + 1) ('[' :: (']' :: rest)) = some (.arr .nil, rest)
      rw [parseValue.eq_3, if_neg (by decide : ¬('[' = 'n')), if_neg (by decide : ¬('[' = 't')),
        if_neg (by decide : ¬('[' = 'f')), if_neg (by decide : ¬('[' = '"')), if_pos rfl,
        skipWs_not_ws (by decide : isWs ']' = false)]
      simp [headCase]
    | cons v1 tl =>
      have hsplit : dumpValue (.arr (.cons v1 tl)) ++ rest =
          '[' :: (dumpValue v1 ++ (dumpElems tl ++ (']' :: rest))) := by
        show ('[' :: (dumpValue v1 ++ dumpElems tl ++ [']'])) ++ rest = _
        simp
      rw [hsplit, parseValue.eq_3, if_neg (by decide : ¬('[' = 'n')),
        if_neg (by decide : ¬('[' = 't')), if_neg (by decide : ¬('[' = 'f')),
        if_neg (by decide : ¬('[' = '"')), if_pos rfl, skipWs_dumpValue]
      obtain ⟨c, cs, hds, hws, hrb, hcb⟩ := dumpValue_head v1
      rw [hds, List.cons_append]
      simp only [headCase]
      rw [if_neg hrb, ← List.cons_append, ← hds,
        parse_dump_elems f v1 tl rest (by simp only [needV] at hfuel; omega)]
      rfl
  | obj o =>
    cases o with
    | nil =>
      show parseValue (f + 1) ('\x7b' :: ('\x7d' :: rest)) = some (.obj .nil, rest)
      rw [parseValue.eq_3, if_neg (by decide : ¬('\x7b' = 'n')),
        if_neg (by decide : ¬('\x7b' = 't')), if_neg (by decide : ¬('\x7b' = 'f')),
        if_neg (by decide : ¬('\x7b' = '"')), if_neg (by decide : ¬('\x7b' = '[')), if_pos rfl,
        skipWs_not_ws (by decide : isWs '\x7d' = false)]
      simp [headCase]
    | cons k v1 tl =>
      have hsplit : dumpValue (.obj (.cons k v1 tl)) ++ rest =
          '\x7b' :: ('"' :: (escString k.data ++ ('"' :: (':' :: (' ' :: (dumpValue v1 ++
            (dumpMembers tl ++ ('\x7d' :: rest)))))))) := by
        show ('\x7b' :: ('"' :: (escString k.data ++ ['"', ':', ' ']) ++ dumpValue v1 ++
          dumpMembers tl ++ ['\x7d'])) ++ rest = _
        simp
      rw [hsplit, parseValue.eq_3, if_neg (by decide : ¬('\x7b' = 'n')),
        if_neg (by decide : ¬('\x7b' = 't')), if_neg (by decide : ¬('\x7b' = 'f')),
        if_neg (by decide : ¬('\x7b' = '"')), if_neg (by decide : ¬('\x7b' = '[')), if_pos rfl,
        skipWs_not_ws (by decide : isWs '"' = false)]
      simp only [headCase]
      rw [if_neg (by decide : ¬('"' = '\x7d')),
        parse_dump_members f k v1 tl rest (by simp only [needV] at hfuel; omega)]
      rfl
termination_by fuel
decreasing_by all_goals omega

theorem parse_dump_elems (fuel : Nat) (v : JSONValue) (tl : JSONArray) (rest : List Char)
    (hfuel : needA (JSONArray.cons v tl) ≤ fuel) :
    parseElems fuel (dumpValue v ++ (dumpElems tl ++ (']' :: rest))) = some (.cons v tl, rest) := by
  obtain ⟨f, hf⟩ : ∃ f, fuel = f + 1 :=
    ⟨fuel - 1, by simp only [needA] at hfuel; omega⟩
  rw [hf]
  have hv := parse_dump_value f v (dumpElems tl ++ (']' :: rest))
    (by simp only [needA] at hfuel; omega) (noDigitStart_dumpElems tl rest)
  rw [parseElems.eq_2, hv]
  simp only []
  cases tl with
  | nil => rfl
  | cons v2 tl2 =>
    show (match skipWs (',' :: (' ' :: ((dumpValue v2 ++ dumpElems tl2) ++ (']' :: rest)))) with
      | ',' :: rest2 =>
        match parseElems f (skipWs rest2) with
        | none => none
        | some (tl3, rest3) => some (JSONArray.cons v tl3, rest3)
      | ']' :: rest2 => some (JSONArray.cons v JSONArray.nil, rest2)
      | _ => none) = some (.cons v (.cons v2 tl2), rest)
    rw [skipWs_not_ws (by decide : isWs ',' = false)]
    simp only []
    rw [skipWs_cons_space, List.append_assoc, skipWs_dumpValue,
      parse_dump_elems f v2 tl2 rest (by simp only [needA] at hfuel ⊢; omega)]
termination_by fuel
decreasing_by all_goals omega

theorem parse_dump_members (fuel : Nat) (k : String) (v : JSONValue) (tl : JSONObject)
    (rest : List Char) (hfuel : needO (JSONObject.cons k v tl) ≤ fuel) :
    parseMembers fuel ('"' :: (escString k.data ++ ('"' :: (':' :: (' ' :: (dumpValue v ++
      (dumpMembers tl ++ ('\x7d' :: rest)))))))) = some (.cons k v tl, rest) := by
  obtain ⟨f, hf⟩ : ∃ f, fuel = f + 1 :=
    ⟨fuel - 1, by simp only [needO] at hfuel; omega⟩
  rw [hf]
  rw [parseMembers.eq_2,
    parseStringBody_escString k.data (':' :: (' ' :: (dumpValue v ++
      (dumpMembers tl ++ ('\x7d' :: rest)))))]
  simp only []
  rw [skipWs_not_ws (by decide : isWs ':' = false)]
  simp only []
  rw [skipWs_cons_space, skipWs_dumpValue,
    parse_dump_value f v (dumpMembers tl ++ ('\x7d' :: rest))
      (by simp only [needO] at hfuel; omega) (noDigitStart_dumpMembers tl rest)]
  simp only []
  cases tl with
  | nil => rfl
  | cons k2 v2 tl2 =>
    show (match skipWs (',' :: (' ' :: (('"' :: (escString k2.data ++ ['"', ':', ' ']) ++
        dumpValue v2 ++ dumpMembers tl2) ++ ('\x7d' :: rest)))) with
      | ',' :: rest5 =>
        match parseMembers f (skipWs rest5) with
        | none => none
        | some (tl3, rest6) => some (JSONObject.cons (String.mk k.data) v tl3, rest6)
      | '\x7d' :: rest5 => some (JSONObject.cons (String.mk k.data) v JSONObject.nil, rest5)
      | _ => none) = some (.cons k v (.cons k2 v2 tl2), rest)
    rw [skipWs_not_ws (by decide : isWs ',' = false)]
    simp only []
    have hnorm : (('"' :: (escString k2.data ++ ['"', ':', ' ']) ++ dumpValue v2 ++
        dumpMembers tl2) ++ ('\x7d' :: rest)) =
        '"' :: (escString k2.data ++ ('"' :: (':' :: (' ' :: (dumpValue v2 ++
          (dumpMembers tl2 ++ ('\x7d' :: rest))))))) := by
      simp
    rw [skipWs_cons_space, hnorm, skipWs_not_ws (by decide : isWs '"' = false),
      parse_dump_members f k2 v2 tl2 rest (by simp only [needO] at hfuel ⊢; omega)]
termination_by fuel
decreasing_by all_goals omega

end


mutual

theorem needV_le : ∀ (v : JSONValue), needV v ≤ (dumpValue v).length
  | .null => by simp [needV, dumpValue]
  | .bool true => by simp [needV, dumpValue]
  | .bool false => by simp [needV, dumpValue]
  | .int n => by
    have h := List.length_pos.mpr (natToChars_ne_nil n.natAbs)
    by_cases hn : n < 0 <;> simp [needV, dumpValue, hn] <;> omega
  | .str s => by simp [needV, dumpValue]
  | .arr .nil => by simp [needV, needA, dumpValue]
  | .arr (.cons v tl) => by
    have h1 := needV_le v
    have h2 := needA_le tl
    simp only [needV, needA, dumpValue, List.length_cons, List.length_append,
      List.length_singleton]
    omega
  | .obj .nil => by simp [needV, needO, dumpValue]
  | .obj (.cons k v tl) => by
    have h1 := needV_le v
    have h2 := needO_le tl
    simp only [needV, needO, dumpValue, List.length_cons, List.length_append,
      List.length_singleton]
    omega

theorem needA_le : ∀ (a : JSONArray), needA a ≤ (dumpElems a).length
  | .nil => by simp [needA, dumpElems]
  | .cons v tl => by
    have h1 := needV_le v
    have h2 := needA_le tl
    simp only [needA, dumpElems, List.length_cons, List.length_append]
    omega

theorem needO_le : ∀ (o : JSONObject), needO o ≤ (dumpMembers o).length
  | .nil => by simp [needO, dumpMembers]
  | .cons k v tl => by
    have h1 := needV_le v
    have h2 := needO_le tl
    simp only [needO, dumpMembers, List.length_cons, List.length_append,
      List.length_singleton]
    omega

end

/-- The modelled `json.loads` inverts the modelled `json.dumps` on every JSON
value: Python round-trips the values this client serialises. -/
theorem loads_dumps (v : JSONValue) : loads (dumps v) = some v := by
  have hp := parse_dump_value ((dumpValue v).length + 1) v []
    (le_trans (needV_le v) (by omega)) rfl
  rw [List.append_nil] at hp
  show (match parseValue ((String.mk (dumpValue v)).length + 1)
      (skipWs (String.mk (dumpValue v)).data) with
    | some (v, rest) => if skipWs rest = [] then some v else none
    | none => none) = some v
  rw [show (String.mk (dumpValue v)).length = (dumpValue v).length from rfl,
    show (String.mk (dumpValue v)).data = dumpValue v from rfl,
    show skipWs (dumpValue v) = dumpValue v by
      have h := skipWs_dumpValue v []
      rw [List.append_nil] at h
      exact h,
    hp]
  rfl


/-!
Claim theorems.
-/

/-- C9: `is_authenticated` is true exactly when both stored tokens are
non-empty strings, and setting either token to the empty string or to `None`
makes it false. -/
theorem C9_is_authenticated_iff (a r : Option String) (u : Option AuthenticatedUser) :
    (PixivAPI.is_authenticated ⟨tokenValue a, tokenValue r, u⟩ = true ↔
      (∃ s, a = some s ∧ s ≠ "") ∧ (∃ t, r = some t ∧ t ≠ "")) ∧
    PixivAPI.is_authenticated ⟨tokenValue (some ""), tokenValue r, u⟩ = false ∧
    PixivAPI.is_authenticated ⟨tokenValue a, tokenValue (some ""), u⟩ = false ∧
    PixivAPI.is_authenticated ⟨tokenValue none, tokenValue r, u⟩ = false ∧
    PixivAPI.is_authenticated ⟨tokenValue a, tokenValue none, u⟩ = false := by
  cases a <;> cases r <;>
    simp [PixivAPI.is_authenticated, tokenValue, jsonTruthy]

/-- C5 counterexample: the payload `b"\x22\xff\x22"` is malformed UTF-8, yet
`parse_json_payload` does not raise `PixivError("Invalid server response")`:
`errors="replace"` turns the invalid byte into U+FFFD and the result parses
as a one-character JSON string. -/
theorem C5_counterexample :
    validUtf8 [34, 255, 34] = false ∧
    BaseRequest.parse_json_payload [34, 255, 34] = .ok (.str "\uFFFD") := by
  exact ⟨by decide, by decide⟩

/-- C5 (amended): `parse_json_payload` either returns the parsed JSON value
or raises exactly `PixivError("Invalid server response")`, and it raises that
error whenever the payload's replaced UTF-8 decoding is not valid JSON; a
payload that is merely malformed UTF-8 may still succeed, because decoding
replaces invalid bytes instead of failing. -/
theorem C5_parse_json_payload_contract (payload : Payload) :
    ((∃ v, BaseRequest.parse_json_payload payload = .ok v) ∨
      BaseRequest.parse_json_payload payload =
        .error (.pixivError "Invalid server response")) ∧
    (loads (String.mk (decodeUtf8Replace payload)) = none →
      BaseRequest.parse_json_payload payload =
        .error (.pixivError "Invalid server response")) := by
  constructor
  · unfold BaseRequest.parse_json_payload
    cases h : loads (String.mk (decodeUtf8Replace payload)) with
    | some v => exact Or.inl ⟨v, rfl⟩
    | none => exact Or.inr rfl
  · intro h
    unfold BaseRequest.parse_json_payload
    rw [h]

theorem C5_witness :
    BaseRequest.parse_json_payload [104, 105] =
      .error (.pixivError "Invalid server response") :=
  (C5_parse_json_payload_contract [104, 105]).2 (by decide)

/-- C1: with the empty-object payload, statuses 403, 404 and 502 classify
into `Forbidden`, `NotFound` and `NetworkError` as the claim states, other
non-2xx statuses give the generic `NetworkError`, and every 2xx status
returns the payload; but status 400 does NOT cleanly raise `BadRequest`: the
leftover ipdb set-trace debug call in that branch of the error classifier
raises `ModuleNotFoundError` when the ipdb module is not importable, and
suspends into an interactive debugger before raising when it is. -/
theorem C1_status_classification :
    (∀ (code : Nat) (payload : Payload), 200 ≤ code → code ≤ 299 →
      BaseRequest.request false (.success code payload) = (.ok payload, [.networkRequest])) ∧
    BaseRequest.request false (.success 403 emptyObjPayload) =
      (.error (.pixiv (.forbidden "")), [.networkRequest]) ∧
    BaseRequest.request false (.success 404 emptyObjPayload) =
      (.error (.pixiv (.notFound "")), [.networkRequest]) ∧
    BaseRequest.request false (.success 502 emptyObjPayload) =
      (.error (.pixiv (.networkError "Bad Gateway - Invalid response from server")),
        [.networkRequest]) ∧
    BaseRequest.request false (.success 500 emptyObjPayload) =
      (.error (.pixiv (.networkError "NetworkError (500)")), [.networkRequest]) ∧
    BaseRequest.request false (.success 400 emptyObjPayload) =
      (.error (.moduleNotFoundError "ipdb"), [.networkRequest]) ∧
    BaseRequest.request true (.success 400 emptyObjPayload) =
      (.error (.pixiv (.badRequest "")), [.networkRequest, .debuggerBreak]) := by
  refine ⟨?_, by decide, by decide, by decide, by decide, by decide, by decide⟩
  intro code payload h1 h2
  show BaseRequest.request false (.success code payload) = (.ok payload, [.networkRequest])
  unfold BaseRequest.request
  simp only []
  rw [if_pos ⟨h1, h2⟩]

theorem C1_witness :
    BaseRequest.request false (.success 250 [7]) = (.ok [7], [.networkRequest]) :=
  C1_status_classification.1 250 [7] (by norm_num) (by norm_num)


/-- C4 counterexample: for the non-file scalar input `"5"` the parameter's
JSON-encoded value is the raw string `"5"` — strings pass through
`json_value` unencoded — and JSON-decoding that yields the number 5, which is
not the marshalled value `"5"`. -/
theorem C4_counterexample :
    (RequestParameter.from_input "k" (.str "5")).value = some (.str "5") ∧
    (RequestParameter.from_input "k" (.str "5")).json_value = .ok (some "5") ∧
    loads "5" = some (.int 5) ∧
    JSONValue.int 5 ≠ JSONValue.str "5" := by
  exact ⟨rfl, rfl, rfl, by decide⟩

/-- C4 (amended): for non-string inputs the round-trip holds — a number or
boolean scalar decodes back to itself, a datetime to its integer Unix
timestamp, and a domain object to its (JSON-serialisable) dictionary form —
while a string input is sent unencoded, so decoding it need not return the
original string. -/
theorem C4_roundtrip_nonstring (key : String) :
    (∀ n : Int, (RequestParameter.from_input key (.int n)).json_value =
        .ok (some (dumps (.int n))) ∧ loads (dumps (.int n)) = some (.int n)) ∧
    (∀ b : Bool, (RequestParameter.from_input key (.bool b)).json_value =
        .ok (some (dumps (.bool b))) ∧ loads (dumps (.bool b)) = some (.bool b)) ∧
    (∀ ts : Int, (RequestParameter.from_input key (.datetime ts)).json_value =
        .ok (some (dumps (.int (to_timestamp ts)))) ∧
      loads (dumps (.int (to_timestamp ts))) = some (.int (to_timestamp ts))) ∧
    (∀ (d : PyFields) (j : JSONValue), pyToJson (.dict d) = some j →
      (RequestParameter.from_input key (.pixivObject d)).json_value = .ok (some (dumps j)) ∧
      loads (dumps j) = some j) := by
  refine ⟨?_, ?_, ?_, ?_⟩
  · intro n
    refine ⟨?_, loads_dumps (.int n)⟩
    simp [RequestParameter.from_input, RequestParameter.valueAndInputFilesFromInput,
      RequestParameter.json_value, pyToJson]
  · intro b
    refine ⟨?_, loads_dumps (.bool b)⟩
    simp [RequestParameter.from_input, RequestParameter.valueAndInputFilesFromInput,
      RequestParameter.json_value, pyToJson]
  · intro ts
    refine ⟨?_, loads_dumps (.int (to_timestamp ts))⟩
    simp [RequestParameter.from_input, RequestParameter.valueAndInputFilesFromInput,
      RequestParameter.json_value, pyToJson, to_timestamp]
  · intro d j hj
    refine ⟨?_, loads_dumps j⟩
    simp [RequestParameter.from_input, RequestParameter.valueAndInputFilesFromInput,
      RequestParameter.json_value, hj]

theorem C4_witness :
    (RequestParameter.from_input "k" (.pixivObject (.cons "a" (.int 1) .nil))).json_value =
      .ok (some (dumps (.obj (.cons "a" (.int 1) .nil)))) ∧
    loads (dumps (.obj (.cons "a" (.int 1) .nil))) = some (.obj (.cons "a" (.int 1) .nil)) :=
  (C4_roundtrip_nonstring "k").2.2.2 (.cons "a" (.int 1) .nil)
    (.obj (.cons "a" (.int 1) .nil)) (by decide)

/-- C2 counterexample: a sequence mixing two file elements and one string
element produces a multipart table with a single entry — the dict
comprehension in `multipart_data` keys every file by the parameter name, so
the second file overwrites the first — not one entry per file element. -/
theorem C2_counterexample :
    RequestData.multipart_data
      [RequestParameter.from_input "p" (.list (.cons (.inputFile ⟨"a.png", [1], "image/png"⟩)
        (.cons (.inputFile ⟨"b.png", [2], "image/png"⟩) (.cons (.str "x") .nil))))] =
      [("p", ("b.png", [2], "image/png"))] ∧
    (specFileElems (.cons (.inputFile ⟨"a.png", [1], "image/png"⟩)
      (.cons (.inputFile ⟨"b.png", [2], "image/png"⟩) (.cons (.str "x") .nil)))).length = 2 := by
  exact ⟨by decide, by decide⟩

theorem valueAndInputFiles_fst (e : PyValue) :
    (RequestParameter.valueAndInputFilesFromInput e).1 = specElemRep e := by
  cases e <;> rfl

theorem valueAndInputFiles_snd (e : PyValue) :
    (RequestParameter.valueAndInputFilesFromInput e).2 = specFileElems (.cons e .nil) := by
  cases e <;> rfl

theorem seqParamValues_spec : ∀ (elems : PyList),
    RequestParameter.seqParamValues elems = specElemReps elems
  | .nil => rfl
  | .cons e tl => by
    simp only [RequestParameter.seqParamValues, specElemReps, valueAndInputFiles_fst,
      seqParamValues_spec tl]

theorem seqInputFiles_spec : ∀ (elems : PyList),
    RequestParameter.seqInputFiles elems = specFileElems elems
  | .nil => rfl
  | .cons e tl => by
    rw [RequestParameter.seqInputFiles, seqInputFiles_spec tl, valueAndInputFiles_snd]
    cases e <;> rfl

theorem foldl_update_singleton (key : String) : ∀ (files : List InputFile) (t : FieldTuple),
    files.foldl (fun d f => alistUpdate d key f.field_tuple) [(key, t)] =
      [(key, ((files.getLast?).map InputFile.field_tuple).getD t)] := by
  intro files
  induction files with
  | nil => intro t; rfl
  | cons f fs ih =>
    intro t
    show fs.foldl (fun d g => alistUpdate d key g.field_tuple)
      (alistUpdate [(key, t)] key f.field_tuple) = _
    rw [show alistUpdate [(key, t)] key f.field_tuple = [(key, f.field_tuple)] by
      simp [alistUpdate]]
    rw [ih f.field_tuple]
    cases fs with
    | nil => rfl
    | cons g gs =>
      rw [List.getLast?_cons_cons]
      cases hx : (g :: gs).getLast? with
      | none =>
        have hs := (List.getLast?_isSome (l := g :: gs)).mpr (by simp)
        rw [hx] at hs
        exact absurd hs (by simp)
      | some x => rfl

/-- C2 (amended): a sequence parameter's JSON value is the array of exactly
the marshalled non-file, non-`None` elements in original order, while the
multipart table contains exactly one entry per parameter having at least one
file element, keyed by the parameter name and carrying the LAST file
element's field tuple. -/
theorem C2_sequence_marshalling (key : String) (elems : PyList) :
    (RequestParameter.from_input key (.list elems)).value =
      some (.list (specElemReps elems)) ∧
    RequestData.multipart_data [RequestParameter.from_input key (.list elems)] =
      (match (specFileElems elems).getLast? with
        | some f => [(key, f.field_tuple)]
        | none => []) := by
  constructor
  · simp only [RequestParameter.from_input, seqParamValues_spec]
  · show RequestData.multipartDataGo [RequestParameter.from_input key (.list elems)] [] = _
    rw [RequestData.multipartDataGo]
    simp only [RequestParameter.from_input, RequestParameter.multipart_data,
      seqInputFiles_spec]
    cases hfs : specFileElems elems with
    | nil => rfl
    | cons f fs =>
      simp only [List.isEmpty_cons, if_neg]
      show RequestData.multipartDataGo []
        (alistMerge [] ((f :: fs).foldl (fun d g => alistUpdate d key g.field_tuple) [])) = _
      rw [show (f :: fs).foldl (fun d g => alistUpdate d key g.field_tuple) [] =
          fs.foldl (fun d g => alistUpdate d key g.field_tuple) [(key, f.field_tuple)] from rfl]
      rw [foldl_update_singleton]
      cases hx : fs.getLast? with
      | none =>
        cases fs with
        | nil => rfl
        | cons g gs =>
          have hs := (List.getLast?_isSome (l := g :: gs)).mpr (by simp)
          rw [hx] at hs
          exact absurd hs (by simp)
      | some x =>
        cases fs with
        | nil => simp at hx
        | cons g gs =>
          rw [List.getLast?_cons_cons, hx]
          rfl

/-- C3: a 2xx body that is structurally invalid — here any JSON object
carrying a `"response"` key but no `"user"` key, the claim's example — makes
`authenticate` raise `AuthenticationError` with the "unsupported data"
message; a transport `NetworkError` makes it raise `AuthenticationError` with
the "could not authenticate" message; and the two messages differ, so callers
can tell the failure modes apart. -/
theorem C3_authenticate_messages (api : PixivAPI) (arg : Option String)
    (fields : JSONObject) (rv : JSONValue) (m : String)
    (hauth : optStrTruthy arg = true ∨ jsonTruthy api._refresh_token = true)
    (hresp : fields.lookup "response" = some rv)
    (huser : (fields.erase "response").lookup "user" = none) :
    (api.authenticate arg (.success (.obj fields))).1 =
      .error (.pixiv (.authenticationError
        "Unsupported data returned from authentication endpoint")) ∧
    (api.authenticate arg (.pixivFailure (.networkError m))).1 =
      .error (.pixiv (.authenticationError
        "Could not authenticate with the given refresh token")) ∧
    "Unsupported data returned from authentication endpoint" ≠
      "Could not authenticate with the given refresh token" := by
  have hA : ¬(optStrTruthy arg = false ∧ jsonTruthy api._refresh_token = false) := by
    rcases hauth with h | h <;> simp [h]
  have hne : fields ≠ .nil := by
    intro h
    rw [h] at hresp
    simp [JSONObject.lookup] at hresp
  have htr : jsonTruthy (.obj fields) = true := by
    cases fields with
    | nil => exact absurd rfl hne
    | cons k v tl => rfl
  have hde : Authentication.de_json (.obj fields) = .error (.keyError "user") := by
    unfold Authentication.de_json PixivObject.parse_data
    simp only []
    rw [if_neg (by simp [htr])]
    simp only [hresp, huser]
  refine ⟨?_, ?_, by decide⟩
  · unfold PixivAPI.authenticate
    rw [if_neg hA]
    simp only [hde]
  · unfold PixivAPI.authenticate
    rw [if_neg hA]

theorem C3_witness :
    (PixivAPI.authenticate ⟨.null, .str "r", none⟩ none
      (.success (.obj (.cons "response" .null .nil)))).1 =
      .error (.pixiv (.authenticationError
        "Unsupported data returned from authentication endpoint")) ∧
    (PixivAPI.authenticate ⟨.null, .str "r", none⟩ none
      (.pixivFailure (.networkError "Test Fail"))).1 =
      .error (.pixiv (.authenticationError
        "Could not authenticate with the given refresh token")) ∧
    "Unsupported data returned from authentication endpoint" ≠
      "Could not authenticate with the given refresh token" :=
  C3_authenticate_messages ⟨.null, .str "r", none⟩ none (.cons "response" .null .nil) .null
    "Test Fail" (Or.inr (by decide)) (by decide) (by decide)

/-- C6: `authenticate` is atomic on the credential state: if it raises any
error the stored access token, refresh token and cached user are all left
unchanged, and if it succeeds all three are replaced together with the values
deserialised from the response body. -/
theorem C6_authenticate_atomic (api : PixivAPI) (arg : Option String)
    (transport : AuthTransportOutcome) :
    (∀ e, (api.authenticate arg transport).1 = .error e →
      (api.authenticate arg transport).2.1 = api) ∧
    ((api.authenticate arg transport).1 = .ok () →
      ∃ auth body, transport = .success body ∧
        Authentication.de_json body = .ok (some auth) ∧
        (api.authenticate arg transport).2.1 =
          ⟨auth.access_token, auth.refresh_token, auth.user⟩) := by
  by_cases hA : optStrTruthy arg = false ∧ jsonTruthy api._refresh_token = false
  · constructor
    · intro e _
      simp [PixivAPI.authenticate, hA]
    · intro h
      simp [PixivAPI.authenticate, hA] at h
  · cases transport with
    | pixivFailure e =>
      constructor
      · intro e2 _
        simp [PixivAPI.authenticate, hA]
      · intro h
        simp [PixivAPI.authenticate, hA] at h
    | otherFailure t =>
      constructor
      · intro e2 _
        simp [PixivAPI.authenticate, hA]
      · intro h
        simp [PixivAPI.authenticate, hA] at h
    | success body =>
      cases hde : Authentication.de_json body with
      | error e =>
        cases e with
        | pixiv e1 =>
          constructor
          · intro e2 _
            simp [PixivAPI.authenticate, hA, hde]
          · intro h
            simp [PixivAPI.authenticate, hA, hde] at h
        | keyError k =>
          constructor
          · intro e2 _
            simp [PixivAPI.authenticate, hA, hde]
          · intro h
            simp [PixivAPI.authenticate, hA, hde] at h
        | typeError t =>
          constructor
          · intro e2 _
            simp [PixivAPI.authenticate, hA, hde]
          · intro h
            simp [PixivAPI.authenticate, hA, hde] at h
        | attributeError t =>
          constructor
          · intro e2 _
            simp [PixivAPI.authenticate, hA, hde]
          · intro h
            simp [PixivAPI.authenticate, hA, hde] at h
        | moduleNotFoundError t =>
          constructor
          · intro e2 _
            simp [PixivAPI.authenticate, hA, hde]
          · intro h
            simp [PixivAPI.authenticate, hA, hde] at h
        | cancelledError =>
          constructor
          · intro e2 _
            simp [PixivAPI.authenticate, hA, hde]
          · intro h
            simp [PixivAPI.authenticate, hA, hde] at h
      | ok o =>
        cases o with
        | none =>
          constructor
          · intro e2 _
            simp [PixivAPI.authenticate, hA, hde]
          · intro h
            simp [PixivAPI.authenticate, hA, hde] at h
        | some auth =>
          constructor
          · intro e2 h
            simp [PixivAPI.authenticate, hA, hde] at h
          · intro _
            exact ⟨auth, body, rfl, hde, by simp [PixivAPI.authenticate, hA, hde]⟩

theorem C6_witness :
    ∃ auth body, (AuthTransportOutcome.success okBodyFixture) = .success body ∧
      Authentication.de_json body = .ok (some auth) ∧
      (PixivAPI.authenticate ⟨.str "old", .str "r", none⟩ none
        (.success okBodyFixture)).2.1 =
        ⟨auth.access_token, auth.refresh_token, auth.user⟩ :=
  (C6_authenticate_atomic ⟨.str "old", .str "r", none⟩ none (.success okBodyFixture)).2
    (by decide)

/-- C7: calling `authenticate` with no refresh-token argument while no
refresh token is stored raises `AttributeError`, a local non-domain argument
error, with an unchanged state and before any network request is recorded. -/
theorem C7_missing_refresh_token (api : PixivAPI) (transport : AuthTransportOutcome)
    (hstored : jsonTruthy api._refresh_token = false) :
    api.authenticate none transport =
      (.error (.attributeError
        "Either \"refresh_token\" (auth argument) or \"self._refresh_token\" (during init) have to be set."),
        api, []) := by
  unfold PixivAPI.authenticate
  rw [if_pos ⟨rfl, hstored⟩]

theorem C7_witness :
    PixivAPI.authenticate ⟨.null, .null, none⟩ none (.success .null) =
      (.error (.attributeError
        "Either \"refresh_token\" (auth argument) or \"self._refresh_token\" (during init) have to be set."),
        ⟨.null, .null, none⟩, []) :=
  C7_missing_refresh_token ⟨.null, .null, none⟩ (.success .null) (by decide)

/-- C8: a 2xx authentication body containing exactly the six documented
fields but no `"response"` key makes `authenticate` raise
`AuthenticationError` with the "unsupported data" message, because
`Authentication.de_json` pops the `"response"` key unconditionally; indeed
every body that deserialises successfully must be an object containing a
`"response"` key. -/
theorem C8_response_key_required :
    (PixivAPI.authenticate ⟨.null, .str "r", none⟩ none
      (.success documentedBodyFixture)).1 =
      .error (.pixiv (.authenticationError
        "Unsupported data returned from authentication endpoint")) ∧
    (∀ body auth, Authentication.de_json body = .ok (some auth) →
      ∃ fields rv, body = .obj fields ∧ fields.lookup "response" = some rv) := by
  constructor
  · decide
  · intro body auth h
    cases body with
    | null => simp [Authentication.de_json, PixivObject.parse_data] at h
    | bool b => simp [Authentication.de_json, PixivObject.parse_data] at h
    | int n => simp [Authentication.de_json, PixivObject.parse_data] at h
    | str s => simp [Authentication.de_json, PixivObject.parse_data] at h
    | arr elems =>
      cases elems with
      | nil => simp [Authentication.de_json, PixivObject.parse_data, jsonTruthy] at h
      | cons v tl => simp [Authentication.de_json, PixivObject.parse_data, jsonTruthy] at h
    | obj fields =>
      refine ⟨fields, ?_⟩
      unfold Authentication.de_json PixivObject.parse_data at h
      simp only [] at h
      by_cases ht : jsonTruthy (.obj fields) = false
      · rw [if_pos ht] at h
        simp at h
      · rw [if_neg ht] at h
        cases hr : fields.lookup "response" with
        | none =>
          rw [hr] at h
          simp at h
        | some rv => exact ⟨rv, rfl, rfl⟩

theorem C8_witness :
    ∃ fields rv, okBodyFixture = JSONValue.obj fields ∧
      fields.lookup "response" = some rv :=
  C8_response_key_required.2 okBodyFixture
    ⟨.str "newA", .str "newR", .int 3600,
      some ⟨.int 1, .str "n", .str "acc", some ⟨.str "u1", .str "u2", .str "u3"⟩,
        .str "m", .bool true, .bool false, .int 2⟩,
      .str "bearer", .str ""⟩ (by decide)

/-- C10: `download_to_file` with `skip_existing` set and an already existing
destination file performs no network read (and no read at all), leaves every
file's content — in particular the destination's — unchanged, and returns the
existing path; only the directory set may gain the created directory. -/
theorem C10_skip_existing (api : PixivAPI) (fs : FS) (cwd url : String)
    (dir_path file_name : Option String) (needs_authentication : Bool) (content : Payload)
    (hfile : fs.is_file (joinPath (absolutePath cwd (dir_path.getD ""))
      (file_name.getD (urlName url))) = true) :
    api.download_to_file fs cwd url dir_path file_name true needs_authentication content =
      (.ok (joinPath (absolutePath cwd (dir_path.getD "")) (file_name.getD (urlName url))),
        fs.mkdirParents (absolutePath cwd (dir_path.getD "")), []) ∧
    (fs.mkdirParents (absolutePath cwd (dir_path.getD ""))).files = fs.files := by
  have hkeep : (fs.mkdirParents (absolutePath cwd (dir_path.getD ""))).files = fs.files := by
    unfold FS.mkdirParents
    split <;> rfl
  refine ⟨?_, hkeep⟩
  unfold PixivAPI.download_to_file
  simp only []
  have hf1 : (fs.mkdirParents (absolutePath cwd (dir_path.getD ""))).is_file
      (joinPath (absolutePath cwd (dir_path.getD "")) (file_name.getD (urlName url))) = true := by
    unfold FS.is_file
    rw [hkeep]
    exact hfile
  simp [hf1]

theorem C10_witness :
    PixivAPI.download_to_file ⟨.str "a", .str "r", none⟩ ⟨[("/cwd/d/x.png", [])], []⟩
      "/cwd" "http://h/p/x.png" (some "d") none true true [9] =
      (.ok "/cwd/d/x.png", ⟨[("/cwd/d/x.png", [])], ["/cwd/d"]⟩, []) ∧
    (FS.mkdirParents ⟨[("/cwd/d/x.png", [])], []⟩ "/cwd/d").files =
      (⟨[("/cwd/d/x.png", [])], []⟩ : FS).files := by
  have h := C10_skip_existing ⟨.str "a", .str "r", none⟩ ⟨[("/cwd/d/x.png", [])], []⟩
    "/cwd" "http://h/p/x.png" (some "d") none true [9] (by decide)
  exact ⟨by rw [h.1]; decide, by decide⟩
end Aiopixiv
